import Mathlib

/-!
Verification of the space-time stealth-game core (`he-walks-unseen`).

This file gives a shallow embedding, in Lean, of the Rust core of the
repository: positions and directions (`src/core/position.rs`), the player
world line (`src/core/world_line.rs`), components and entities
(`src/core/components.rs`, `src/core/entity.rs`), time slices and the
space-time cube (`src/core/time_slice.rs`, `src/core/time_cube.rs`), the
propagation engine (`src/core/propagation.rs`), the detection engine
(`src/core/detection.rs`, `src/core/light_cone.rs`) and the game layer
(`src/game/validation.rs`, `src/game/actions.rs`, `src/game/state.rs`).

Rust `i32` coordinates are modelled as `Int` (coordinate arithmetic in the
source never approaches `i32` bounds), `usize` counters as `Nat`,
`HashSet`/`HashMap` as lists queried by membership/key (the derived spatial
index of a slice, which the source keeps exactly inverse to the entity
positions, is represented by filtering entity positions directly), and
fallible operations on `&mut self` as state-passing functions returning the
result together with the new state, so that "does not mutate on failure"
is expressible.
-/

namespace HeWalksUnseen

/-! ## Geometry (`src/core/position.rs`) -/

/-- A position in the 3D space-time cube (`Position` in `position.rs`). -/
structure Position where
  x : Int
  y : Int
  t : Int
deriving DecidableEq, Repr

/-- A 2D spatial position with no time component (`SpatialPos`). -/
structure SpatialPos where
  x : Int
  y : Int
deriving DecidableEq, Repr

/-- Cardinal directions for movement, no diagonals (`Direction`). -/
inductive Direction where
  | north
  | south
  | east
  | west
deriving DecidableEq, Repr

/-- Constructor `SpatialPos::new`. -/
def SpatialPos.new (x y : Int) : SpatialPos := ⟨x, y⟩

/-- Constructor `Position::new`. -/
def Position.new (x y t : Int) : Position := ⟨x, y, t⟩

/-- Spatial component of a position (`Position::spatial`). -/
def Position.spatial (p : Position) : SpatialPos := ⟨p.x, p.y⟩

/-- Direction deltas (`Direction::delta`). -/
def Direction.delta : Direction → Int × Int
  | .north => (0, -1)
  | .south => (0, 1)
  | .east => (1, 0)
  | .west => (-1, 0)

/-- Opposite direction (`Direction::opposite`). -/
def Direction.opposite : Direction → Direction
  | .north => .south
  | .south => .north
  | .east => .west
  | .west => .east

/-- All four cardinal directions (`Direction::all`). -/
def Direction.all : List Direction := [.north, .south, .east, .west]

/-- Move in a direction, time unchanged (`Position::move_dir`). -/
def Position.move_dir (p : Position) (dir : Direction) : Position :=
  ⟨p.x + dir.delta.1, p.y + dir.delta.2, p.t⟩

/-- Advance time by one, position unchanged (`Position::tick`). -/
def Position.tick (p : Position) : Position := ⟨p.x, p.y, p.t + 1⟩

/-- Move in a direction and advance time (`Position::step`). -/
def Position.step (p : Position) (dir : Direction) : Position :=
  ⟨p.x + dir.delta.1, p.y + dir.delta.2, p.t + 1⟩

/-- Wait in place, advancing time only (`Position::wait`). -/
def Position.wait (p : Position) : Position := p.tick

/-- Spatial Manhattan distance, ignoring `t` (`Position::manhattan_distance`,
which sums `unsigned_abs` of the coordinate differences). -/
def Position.manhattan_distance (p q : Position) : Nat :=
  (p.x - q.x).natAbs + (p.y - q.y).natAbs

/-- Same `(x, y, t)` test (`Position::same_spacetime`). -/
def Position.same_spacetime (p q : Position) : Bool :=
  p.x == q.x && p.y == q.y && p.t == q.t

/-- Same `(x, y)` test, ignoring `t` (`Position::same_space`). -/
def Position.same_space (p q : Position) : Bool :=
  p.x == q.x && p.y == q.y

/-- Causal step validity (`Position::is_valid_step_from`): time advances by
exactly one and the spatial Manhattan distance is at most 1. -/
def Position.is_valid_step_from (p current : Position) : Bool :=
  p.t == current.t + 1 && decide (current.manhattan_distance p ≤ 1)

/-- Manhattan distance on spatial positions (`light_cone.rs`'s
`manhattan_distance`, which returns an `i32` of absolute differences). -/
def SpatialPos.manhattan_distance (a b : SpatialPos) : Int :=
  (a.x - b.x).natAbs + (a.y - b.y).natAbs

/-! ## World line (`src/core/world_line.rs`) -/

/-- Error type for world line operations (`WorldLineError`). -/
inductive WorldLineError where
  | selfIntersection (x y t : Int)
  | empty
  | invalidStep (fx fy ft tx ty tt : Int)
deriving DecidableEq, Repr

/-- The player's path through space-time (`WorldLine`): the path ordered by
turn number together with the visited set (a `HashSet` in the source,
modelled as a list queried only by membership). -/
structure WorldLine where
  path : List Position
  visited : List Position
deriving DecidableEq, Repr

/-- Create a world line starting at a position (`WorldLine::new`). -/
def WorldLine.new (start : Position) : WorldLine :=
  ⟨[start], [start]⟩

/-- Create an empty world line (`WorldLine::empty`). -/
def WorldLine.emptyLine : WorldLine := ⟨[], []⟩

/-- Current (last) position (`WorldLine::current`). -/
def WorldLine.current (wl : WorldLine) : Option Position :=
  wl.path.getLast?

/-- Check emptiness (`WorldLine::is_empty`). -/
def WorldLine.is_empty (wl : WorldLine) : Bool :=
  wl.path.isEmpty

/-- Membership in the visited set (`WorldLine::would_intersect`). -/
def WorldLine.would_intersect (wl : WorldLine) (pos : Position) : Bool :=
  decide (pos ∈ wl.visited)

/-- Standard extension (`WorldLine::extend`): validates the causal step and
the self-intersection invariant, pushing the position only when both hold.
The pair returns the `Result` together with the (possibly updated) world
line, mirroring `&mut self`. -/
def WorldLine.extend (wl : WorldLine) (pos : Position) :
    Except WorldLineError Unit × WorldLine :=
  match wl.current with
  | none => (Except.error .empty, wl)
  | some current =>
    if !pos.is_valid_step_from current then
      (Except.error (.invalidStep current.x current.y current.t pos.x pos.y pos.t), wl)
    else if wl.would_intersect pos then
      (Except.error (.selfIntersection pos.x pos.y pos.t), wl)
    else
      (Except.ok (), ⟨wl.path ++ [pos], pos :: wl.visited⟩)

/-- Rift extension (`WorldLine::extend_via_rift`): validates only the
self-intersection invariant. -/
def WorldLine.extend_via_rift (wl : WorldLine) (pos : Position) :
    Except WorldLineError Unit × WorldLine :=
  if wl.is_empty then
    (Except.error .empty, wl)
  else if wl.would_intersect pos then
    (Except.error (.selfIntersection pos.x pos.y pos.t), wl)
  else
    (Except.ok (), ⟨wl.path ++ [pos], pos :: wl.visited⟩)

/-- A call in a sequence of world line extensions: either a standard
`extend` or an `extend_via_rift`. -/
inductive WLOp where
  | ext (pos : Position)
  | rift (pos : Position)

/-- Apply one extension call to a world line. -/
def applyOp (wl : WorldLine) : WLOp → Except WorldLineError Unit × WorldLine
  | .ext pos => wl.extend pos
  | .rift pos => wl.extend_via_rift pos

/-- Run a sequence of extension calls, requiring every call to succeed
(`none` as soon as any call reports an error). -/
def runOps : WorldLine → List WLOp → Option WorldLine
  | wl, [] => some wl
  | wl, op :: rest =>
    match applyOp wl op with
    | (Except.ok _, wl') => runOps wl' rest
    | (Except.error _, _) => none

/-- The representation invariant of a world line: the path has no duplicate
`(x,y,t)` triples, and the visited set holds exactly the path entries. -/
def WLinv (wl : WorldLine) : Prop :=
  wl.path.Nodup ∧ ∀ p : Position, p ∈ wl.visited ↔ p ∈ wl.path

theorem WLinv_new (start : Position) : WLinv (WorldLine.new start) := by
  constructor
  · simp [WorldLine.new]
  · intro p; simp [WorldLine.new]

theorem WLinv_push {wl : WorldLine} {pos : Position} (hinv : WLinv wl)
    (hint : wl.would_intersect pos = false) :
    WLinv ⟨wl.path ++ [pos], pos :: wl.visited⟩ := by
  have hmem : pos ∉ wl.visited := by
    simpa [WorldLine.would_intersect] using hint
  have hpath : pos ∉ wl.path := fun hc => hmem ((hinv.2 pos).mpr hc)
  refine ⟨?_, ?_⟩
  · simpa [List.nodup_append] using ⟨hinv.1, fun hc => hpath hc⟩
  · intro p
    constructor
    · intro hp
      rcases List.mem_cons.mp hp with rfl | hp
      · exact List.mem_append.mpr (Or.inr (List.mem_singleton.mpr rfl))
      · exact List.mem_append.mpr (Or.inl ((hinv.2 p).mp hp))
    · intro hp
      rcases List.mem_append.mp hp with hp | hp
      · exact List.mem_cons.mpr (Or.inr ((hinv.2 p).mpr hp))
      · exact List.mem_cons.mpr (Or.inl (List.mem_singleton.mp hp))

theorem extend_ok_inv {wl wl' : WorldLine} {pos : Position} (hinv : WLinv wl)
    (h : wl.extend pos = (Except.ok (), wl')) : WLinv wl' := by
  unfold WorldLine.extend at h
  split at h
  · exact absurd h (by simp)
  · split at h
    · exact absurd h (by simp)
    · split at h
      · exact absurd h (by simp)
      · rename_i hint
        obtain ⟨-, h2⟩ := Prod.mk.injEq .. ▸ h
        exact h2 ▸ WLinv_push hinv (by simpa using hint)

theorem extend_via_rift_ok_inv {wl wl' : WorldLine} {pos : Position} (hinv : WLinv wl)
    (h : wl.extend_via_rift pos = (Except.ok (), wl')) : WLinv wl' := by
  unfold WorldLine.extend_via_rift at h
  split at h
  · exact absurd h (by simp)
  · split at h
    · exact absurd h (by simp)
    · rename_i hint
      obtain ⟨-, h2⟩ := Prod.mk.injEq .. ▸ h
      exact h2 ▸ WLinv_push hinv (by simpa using hint)

theorem applyOp_ok_inv {wl wl' : WorldLine} {op : WLOp} (hinv : WLinv wl)
    (h : applyOp wl op = (Except.ok (), wl')) : WLinv wl' := by
  rcases op with pos | pos
  · exact extend_ok_inv hinv h
  · exact extend_via_rift_ok_inv hinv h

theorem runOps_inv {ops : List WLOp} {wl wl' : WorldLine} (hinv : WLinv wl)
    (h : runOps wl ops = some wl') : WLinv wl' := by
  induction ops generalizing wl with
  | nil =>
    simp only [runOps, Option.some.injEq] at h
    exact h ▸ hinv
  | cons op rest ih =>
    simp only [runOps] at h
    rcases happ : applyOp wl op with ⟨r, wlnext⟩
    rw [happ] at h
    rcases r with e | u
    · exact absurd h (by simp)
    · exact ih (applyOp_ok_inv hinv happ) h

/-! ## Components (`src/core/components.rs`)

The `uuid` entity identifier is modelled as `Nat`; the source only compares
identifiers for equality. -/

/-- Entity identifier (`EntityId`, a UUID in the source). -/
abbrev EntityId := Nat

/-- Patrol behaviour data (`PatrolData`). -/
structure PatrolData where
  path : List SpatialPos
  loops : Bool
deriving DecidableEq, Repr

/-- Vision cone data (`VisionData`). -/
structure VisionData where
  light_speed : Nat
  facing : Direction
  fov_degrees : Nat
deriving DecidableEq, Repr

/-- Rift teleportation data (`RiftData`). -/
structure RiftData where
  target : Position
  bidirectional : Bool
deriving DecidableEq, Repr

/-- Entity capability components (`Component`). -/
inductive Component where
  | blocksMovement
  | blocksVision
  | pushable
  | pullable
  | timePersistent
  | patrol (data : PatrolData)
  | visionCone (data : VisionData)
  | riftLink (data : RiftData)
  | exitMark
  | player
deriving DecidableEq, Repr

/-- Component predicate `Component::blocks_movement`. -/
def Component.blocks_movement : Component → Bool
  | .blocksMovement => true
  | _ => false

/-- Component predicate `Component::blocks_vision`. -/
def Component.blocks_vision : Component → Bool
  | .blocksVision => true
  | _ => false

/-- Component predicate `Component::is_time_persistent`. -/
def Component.is_time_persistent : Component → Bool
  | .timePersistent => true
  | _ => false

/-- Deterministic patrol position (`PatrolData::position_at`): for a
non-negative time `t` (asserted in the source and guaranteed by callers),
index `t % len` when looping, else `min t (len - 1)`. The source's
`path[index]` (whose bound always holds for the non-empty paths enforced at
construction) is modelled with a default for the empty-path case. -/
def PatrolData.position_at (p : PatrolData) (t : Int) : SpatialPos :=
  let idx := if p.loops then t.toNat % p.path.length else min t.toNat (p.path.length - 1)
  p.path.getD idx (SpatialPos.new 0 0)

/-! ## Entities (`src/core/entity.rs`) -/

/-- An entity: identity, space-time position, component set, optional
display name (`Entity`). -/
structure Entity where
  id : EntityId
  position : Position
  components : List Component
  name : Option String
deriving DecidableEq, Repr

/-- Derived entity classification (`EntityType`). -/
inductive EntityType where
  | player
  | enemy
  | riftT
  | exitT
  | box
  | wall
  | floor
  | custom
deriving DecidableEq, Repr

/-- Rust `format!("{:?}", entity_type)` as used in `MoveError::Blocked`. -/
def EntityType.debugStr : EntityType → String
  | .player => "Player"
  | .enemy => "Enemy"
  | .riftT => "Rift"
  | .exitT => "Exit"
  | .box => "Box"
  | .wall => "Wall"
  | .floor => "Floor"
  | .custom => "Custom"

/-- Component-set search (`Entity::has`). -/
def Entity.has (e : Entity) (f : Component → Bool) : Bool :=
  e.components.any f

/-- Predicate `Entity::blocks_movement`. -/
def Entity.blocks_movement (e : Entity) : Bool :=
  e.has Component.blocks_movement

/-- Predicate `Entity::blocks_vision`. -/
def Entity.blocks_vision (e : Entity) : Bool :=
  e.has Component.blocks_vision

/-- Predicate `Entity::is_time_persistent`. -/
def Entity.is_time_persistent (e : Entity) : Bool :=
  e.has Component.is_time_persistent

/-- Predicate `Entity::is_player`. -/
def Entity.is_player (e : Entity) : Bool :=
  e.has fun c => match c with | .player => true | _ => false

/-- Predicate `Entity::is_enemy` (has a vision cone). -/
def Entity.is_enemy (e : Entity) : Bool :=
  e.has fun c => match c with | .visionCone _ => true | _ => false

/-- Predicate `Entity::is_rift`. -/
def Entity.is_rift (e : Entity) : Bool :=
  e.has fun c => match c with | .riftLink _ => true | _ => false

/-- Predicate `Entity::is_exit`. -/
def Entity.is_exit (e : Entity) : Bool :=
  e.has fun c => match c with | .exitMark => true | _ => false

/-- Classification with precedence (`Entity::entity_type`). -/
def Entity.entity_type (e : Entity) : EntityType :=
  if e.is_player then .player
  else if e.is_enemy then .enemy
  else if e.is_rift then .riftT
  else if e.is_exit then .exitT
  else if e.has (fun c => match c with | .pushable | .pullable => true | _ => false) then .box
  else if e.blocks_movement && e.blocks_vision then .wall
  else if !e.blocks_movement && !e.blocks_vision then .floor
  else .custom

/-- Accessor `Entity::rift_data`. -/
def Entity.rift_data (e : Entity) : Option RiftData :=
  e.components.findSome? fun c => match c with | .riftLink d => some d | _ => none

/-- Accessor `Entity::patrol_data`. -/
def Entity.patrol_data (e : Entity) : Option PatrolData :=
  e.components.findSome? fun c => match c with | .patrol d => some d | _ => none

/-- Accessor `Entity::vision_data`. -/
def Entity.vision_data (e : Entity) : Option VisionData :=
  e.components.findSome? fun c => match c with | .visionCone d => some d | _ => none

/-- Clone to a new position, same identity (`Entity::at_position`). -/
def Entity.at_position (e : Entity) (pos : Position) : Entity :=
  { e with position := pos }

/-- Clone to a specific time slice, same spatial position (`Entity::at_time`). -/
def Entity.at_time (e : Entity) (t : Int) : Entity :=
  e.at_position (Position.new e.position.x e.position.y t)

/-- Factory `Entity::wall`; the source draws a fresh UUID, modelled by an
explicit identifier argument. -/
def Entity.wall (id : EntityId) (position : Position) : Entity :=
  ⟨id, position, [.blocksMovement, .blocksVision, .timePersistent], none⟩

/-- Factory `Entity::player` (not time-persistent). -/
def Entity.player (id : EntityId) (position : Position) : Entity :=
  ⟨id, position, [.player], none⟩

/-- Factory `Entity::enemy` (patrol + vision cone, time-persistent). -/
def Entity.enemy (id : EntityId) (position : Position) (patrol : PatrolData)
    (vision : VisionData) : Entity :=
  ⟨id, position, [.patrol patrol, .visionCone vision, .timePersistent], none⟩

/-- Factory `Entity::pushable_box`. -/
def Entity.pushable_box (id : EntityId) (position : Position) : Entity :=
  ⟨id, position, [.pushable, .blocksMovement, .timePersistent], none⟩

/-- Factory `Entity::pullable_box` (pushable and pullable). -/
def Entity.pullable_box (id : EntityId) (position : Position) : Entity :=
  ⟨id, position, [.pushable, .pullable, .blocksMovement, .timePersistent], none⟩

/-- Factory `Entity::rift`. -/
def Entity.riftEntity (id : EntityId) (position target : Position)
    (bidirectional : Bool) : Entity :=
  ⟨id, position, [.riftLink ⟨target, bidirectional⟩, .timePersistent], none⟩

/-- Factory `Entity::exit`. -/
def Entity.exitEntity (id : EntityId) (position : Position) : Entity :=
  ⟨id, position, [.exitMark, .timePersistent], none⟩

/-! ## Time slices (`src/core/time_slice.rs`)

The source keeps a `HashMap` from id to entity plus a derived spatial
index; the embedding keeps the entity collection as a list with unique ids
(maintained by `add_entity`/`remove_entity`) and answers spatial queries by
filtering positions directly, which by the slice's documented invariant is
exactly what the index returns. -/

/-- A 2D snapshot of the world at a fixed time (`TimeSlice`). -/
structure TimeSlice where
  t : Int
  width : Int
  height : Int
  entities : List Entity
deriving DecidableEq, Repr

/-- Constructor `TimeSlice::new`. -/
def TimeSlice.new (t width height : Int) : TimeSlice :=
  ⟨t, width, height, []⟩

/-- Spatial bounds check (`TimeSlice::in_bounds`). -/
def TimeSlice.in_bounds (s : TimeSlice) (pos : SpatialPos) : Bool :=
  decide (0 ≤ pos.x ∧ 0 ≤ pos.y ∧ pos.x < s.width ∧ pos.y < s.height)

/-- Lookup by id (`TimeSlice::entity`). -/
def TimeSlice.entity (s : TimeSlice) (id : EntityId) : Option Entity :=
  s.entities.find? fun e => e.id == id

/-- Entities occupying a cell (`TimeSlice::entities_at`, through the
spatial index). -/
def TimeSlice.entities_at (s : TimeSlice) (pos : SpatialPos) : List Entity :=
  s.entities.filter fun e => e.position.spatial == pos

/-- Insert or overwrite by id (`TimeSlice::add_entity`): any previous entity
with the same id is dropped (and its index entry removed) before the new
one is recorded. -/
def TimeSlice.add_entity (s : TimeSlice) (entity : Entity) : TimeSlice :=
  { s with entities := (s.entities.filter fun e => !(e.id == entity.id)) ++ [entity] }

/-- Removal by id (`TimeSlice::remove_entity`), returning the removed
entity when found together with the updated slice. -/
def TimeSlice.remove_entity (s : TimeSlice) (id : EntityId) :
    Option Entity × TimeSlice :=
  match s.entities.find? (fun e => e.id == id) with
  | none => (none, s)
  | some e => (some e, { s with entities := s.entities.filter fun x => !(x.id == id) })

/-- Blocking query (`TimeSlice::blocks_movement_at`). -/
def TimeSlice.blocks_movement_at (s : TimeSlice) (pos : SpatialPos) : Bool :=
  (s.entities_at pos).any (·.blocks_movement)

/-- Vision-blocking query (`TimeSlice::blocks_vision_at`). -/
def TimeSlice.blocks_vision_at (s : TimeSlice) (pos : SpatialPos) : Bool :=
  (s.entities_at pos).any (·.blocks_vision)

/-- Rift query (`TimeSlice::has_rift_at`). -/
def TimeSlice.has_rift_at (s : TimeSlice) (pos : SpatialPos) : Bool :=
  (s.entities_at pos).any (·.is_rift)

/-- Exit query (`TimeSlice::is_exit_at`). -/
def TimeSlice.is_exit_at (s : TimeSlice) (pos : SpatialPos) : Bool :=
  (s.entities_at pos).any (·.is_exit)

/-- Rift target query (`TimeSlice::rift_target_at`). -/
def TimeSlice.rift_target_at (s : TimeSlice) (pos : SpatialPos) : Option Position :=
  (s.entities_at pos).findSome? fun e => e.rift_data.map (·.target)

/-- Enemy lookup (`TimeSlice::enemies`). -/
def TimeSlice.enemies (s : TimeSlice) : List Entity :=
  s.entities.filter (·.is_enemy)

/-! ## Space-time cube (`src/core/time_cube.rs`) -/

/-- Error type for cube operations (`CubeError`). -/
inductive CubeError where
  | outOfBounds (x y t max_x max_y max_t : Int)
  | entityNotFound (id : EntityId)
  | entityAlreadyExists (id : EntityId) (t : Int)
  | timeSliceNotFound (t : Int)
  | positionBlocked (x y t : Int)
deriving DecidableEq, Repr

/-- The complete space-time cube (`TimeCube`): dimensions plus the time
slices indexed by `t`. -/
structure TimeCube where
  width : Int
  height : Int
  time_depth : Int
  slices : List TimeSlice
deriving DecidableEq, Repr

/-- Integer range `[a, b)` as a list, for the source's `for t in a..b`. -/
def intRange (a b : Int) : List Int :=
  (List.range (b - a).toNat).map fun (i : Nat) => a + (i : Int)

/-- Replace the element at an index, identity when out of range (used to
model in-place mutation through `slice_mut`). -/
def listModify (f : α → α) : Nat → List α → List α
  | _, [] => []
  | 0, a :: as => f a :: as
  | n + 1, a :: as => a :: listModify f n as

/-- Constructor `TimeCube::new` (negative depth clamps to zero). -/
def TimeCube.new (width height time_depth : Int) : TimeCube :=
  let depth := if time_depth < 0 then 0 else time_depth
  ⟨width, height, depth, (intRange 0 depth).map fun t => TimeSlice.new t width height⟩

/-- Bounds check (`TimeCube::in_bounds`). -/
def TimeCube.in_bounds (c : TimeCube) (pos : Position) : Bool :=
  decide (0 ≤ pos.x ∧ 0 ≤ pos.y ∧ 0 ≤ pos.t ∧
    pos.x < c.width ∧ pos.y < c.height ∧ pos.t < c.time_depth)

/-- Structured bounds validation (`TimeCube::validate_position`). -/
def TimeCube.validate_position (c : TimeCube) (pos : Position) : Except CubeError Unit :=
  if c.in_bounds pos then Except.ok ()
  else Except.error (.outOfBounds pos.x pos.y pos.t c.width c.height c.time_depth)

/-- Immutable slice access (`TimeCube::slice`). -/
def TimeCube.slice (c : TimeCube) (t : Int) : Option TimeSlice :=
  if t < 0 then none else c.slices[t.toNat]?

/-- Mutation through `TimeCube::slice_mut`: apply `f` to the slice at `t`
when it exists, otherwise leave the cube unchanged. -/
def TimeCube.modifySlice (c : TimeCube) (t : Int) (f : TimeSlice → TimeSlice) : TimeCube :=
  if t < 0 then c else { c with slices := listModify f t.toNat c.slices }

/-- Lookup by id and time (`TimeCube::entity_at_time`). -/
def TimeCube.entity_at_time (c : TimeCube) (id : EntityId) (t : Int) : Option Entity :=
  (c.slice t).bind (·.entity id)

/-- All entities at a position (`TimeCube::entities_at`). -/
def TimeCube.entities_at (c : TimeCube) (pos : Position) : List Entity :=
  if !c.in_bounds pos then []
  else match c.slice pos.t with
       | some s => s.entities_at pos.spatial
       | none => []

/-- Single-slice spawn (`TimeCube::spawn`): fails on out-of-bounds or on an
id conflict in the addressed slice. -/
def TimeCube.spawn (c : TimeCube) (entity : Entity) :
    Except CubeError EntityId × TimeCube :=
  match c.validate_position entity.position with
  | .error e => (.error e, c)
  | .ok _ =>
    let t := entity.position.t
    match c.slice t with
    | none => (.error (.timeSliceNotFound t), c)
    | some slice =>
      if (slice.entity entity.id).isSome then
        (.error (.entityAlreadyExists entity.id t), c)
      else
        (.ok entity.id, c.modifySlice t (·.add_entity entity))

/-- First conflicting target time in the pre-check loop of
`spawn_and_propagate`. -/
def firstConflict (c : TimeCube) (id : EntityId) (ts : List Int) : Option Int :=
  ts.find? fun t =>
    match c.slice t with
    | some s => (s.entity id).isSome
    | none => false

/-- Propagating spawn (`TimeCube::spawn_and_propagate`): pre-checks every
target slice for id conflicts before writing anything, then spawns at the
origin and clones the entity into every later slice when it is
time-persistent. -/
def TimeCube.spawn_and_propagate (c : TimeCube) (entity : Entity) :
    Except CubeError EntityId × TimeCube :=
  match c.validate_position entity.position with
  | .error e => (.error e, c)
  | .ok _ =>
    let start_t := entity.position.t
    let is_persistent := entity.is_time_persistent
    if (match c.slice start_t with
        | some s => (s.entity entity.id).isSome
        | none => false) then
      (.error (.entityAlreadyExists entity.id start_t), c)
    else
      match (if is_persistent then firstConflict c entity.id (intRange (start_t + 1) c.time_depth)
             else none) with
      | some t => (.error (.entityAlreadyExists entity.id t), c)
      | none =>
        match c.spawn entity with
        | (.error e, c1) => (.error e, c1)
        | (.ok _, c1) =>
          let c2 := if is_persistent then
              (intRange (start_t + 1) c.time_depth).foldl
                (fun acc t => acc.modifySlice t (·.add_entity (entity.at_time t))) c1
            else c1
          (.ok entity.id, c2)

/-- Overwriting spawn (`TimeCube::spawn_or_replace`): no conflict check, no
propagation. -/
def TimeCube.spawn_or_replace (c : TimeCube) (entity : Entity) :
    Except CubeError EntityId × TimeCube :=
  match c.validate_position entity.position with
  | .error e => (.error e, c)
  | .ok _ =>
    match c.slice entity.position.t with
    | none => (.error (.timeSliceNotFound entity.position.t), c)
    | some _ => (.ok entity.id, c.modifySlice entity.position.t (·.add_entity entity))

/-- Per-slice despawn (`TimeCube::despawn_at`). -/
def TimeCube.despawn_at (c : TimeCube) (id : EntityId) (t : Int) :
    Except CubeError Entity × TimeCube :=
  match c.slice t with
  | none => (.error (.timeSliceNotFound t), c)
  | some s =>
    match s.remove_entity id with
    | (none, _) => (.error (.entityNotFound id), c)
    | (some e, s') => (.ok e, c.modifySlice t fun _ => s')

/-- All-slice despawn (`TimeCube::despawn_all`): removes the id from every
slice, returning the removed instances in slice order. -/
def TimeCube.despawn_all (c : TimeCube) (id : EntityId) : List Entity × TimeCube :=
  let results := c.slices.map (·.remove_entity id)
  (results.filterMap (·.1), { c with slices := results.map (·.2) })

/-- Aggregate query `TimeCube::blocks_movement` (false out of bounds). -/
def TimeCube.blocks_movement (c : TimeCube) (pos : Position) : Bool :=
  if !c.in_bounds pos then false
  else match c.slice pos.t with
       | some s => s.blocks_movement_at pos.spatial
       | none => false

/-- Aggregate query `TimeCube::blocks_vision` (false out of bounds). -/
def TimeCube.blocks_vision (c : TimeCube) (pos : Position) : Bool :=
  if !c.in_bounds pos then false
  else match c.slice pos.t with
       | some s => s.blocks_vision_at pos.spatial
       | none => false

/-- Aggregate query `TimeCube::has_rift` (false out of bounds). -/
def TimeCube.has_rift (c : TimeCube) (pos : Position) : Bool :=
  if !c.in_bounds pos then false
  else match c.slice pos.t with
       | some s => s.has_rift_at pos.spatial
       | none => false

/-- Aggregate query `TimeCube::rift_target` (none out of bounds). -/
def TimeCube.rift_target (c : TimeCube) (pos : Position) : Option Position :=
  if !c.in_bounds pos then none
  else match c.slice pos.t with
       | some s => s.rift_target_at pos.spatial
       | none => none

/-- Aggregate query `TimeCube::is_exit` (false out of bounds). -/
def TimeCube.is_exit (c : TimeCube) (pos : Position) : Bool :=
  if !c.in_bounds pos then false
  else match c.slice pos.t with
       | some s => s.is_exit_at pos.spatial
       | none => false

/-- Aggregate query `TimeCube::enemies_at`. -/
def TimeCube.enemies_at (c : TimeCube) (t : Int) : List Entity :=
  match c.slice t with
  | some s => s.enemies
  | none => []

/-- C1: counterexample to the claim as stated. In the world line freshly
created at `(0,0,0)`, the target `(0,0,0)` is already in the visited set,
yet `extend (0,0,0)` returns an `InvalidStep` error — not the claimed
`SelfIntersection` — because `extend` checks the causal-step rule before
the intersection rule. (The world line is still left unchanged.) -/
theorem C1_counterexample :
    (WorldLine.new (Position.new 0 0 0)).would_intersect (Position.new 0 0 0) = true
    ∧ (WorldLine.new (Position.new 0 0 0)).extend (Position.new 0 0 0)
        = (Except.error (WorldLineError.invalidStep 0 0 0 0 0 0),
           WorldLine.new (Position.new 0 0 0)) := by
  constructor <;> rfl

/-- C1 (amended): for every sequence of successful `extend`/`extend_via_rift`
calls starting from a world line created with `new`, no two entries of the
resulting path share an identical `(x,y,t)` triple. An `extend_via_rift`
call whose target is already in the visited set returns a `SelfIntersection`
error, and so does an `extend` call whose target is already visited and is a
valid causal step; an `extend` call whose target is not a valid causal step
returns an `InvalidStep` error (even if the target is also already visited).
In every failing case the path and the visited set are left unchanged. -/
theorem C1_no_self_intersection :
    (∀ (start : Position) (ops : List WLOp) (wl : WorldLine),
        runOps (WorldLine.new start) ops = some wl → wl.path.Nodup)
    ∧ (∀ (wl : WorldLine) (pos : Position), wl.is_empty = false →
        wl.would_intersect pos = true →
        wl.extend_via_rift pos =
          (Except.error (WorldLineError.selfIntersection pos.x pos.y pos.t), wl))
    ∧ (∀ (wl : WorldLine) (c pos : Position), wl.current = some c →
        pos.is_valid_step_from c = true → wl.would_intersect pos = true →
        wl.extend pos =
          (Except.error (WorldLineError.selfIntersection pos.x pos.y pos.t), wl))
    ∧ (∀ (wl : WorldLine) (c pos : Position), wl.current = some c →
        pos.is_valid_step_from c = false →
        wl.extend pos =
          (Except.error (WorldLineError.invalidStep c.x c.y c.t pos.x pos.y pos.t), wl)) := by
  refine ⟨?_, ?_, ?_, ?_⟩
  · intro start ops wl h
    exact (runOps_inv (WLinv_new start) h).1
  · intro wl pos hemp hint
    simp [WorldLine.extend_via_rift, hemp, hint]
  · intro wl c pos hcur hstep hint
    simp [WorldLine.extend, hcur, hstep, hint]
  · intro wl c pos hcur hstep
    simp [WorldLine.extend, hcur, hstep]

/-- C1 witness: the amended theorem applied at concrete inputs. The world
line reached from `(0,0,0)` by one east step has a duplicate-free path; a
world line whose current position is `(0,0,0)` and which has already
visited `(1,0,1)` rejects `extend (1,0,1)` with `SelfIntersection`. -/
theorem C1_no_self_intersection_witness :
    ((⟨[Position.new 0 0 0, Position.new 1 0 1],
       [Position.new 1 0 1, Position.new 0 0 0]⟩ : WorldLine)).path.Nodup
    ∧ (⟨[Position.new 1 0 1, Position.new 0 0 0],
        [Position.new 0 0 0, Position.new 1 0 1]⟩ : WorldLine).extend (Position.new 1 0 1)
      = (Except.error (WorldLineError.selfIntersection 1 0 1),
         ⟨[Position.new 1 0 1, Position.new 0 0 0],
          [Position.new 0 0 0, Position.new 1 0 1]⟩) :=
  ⟨C1_no_self_intersection.1 (Position.new 0 0 0) [WLOp.ext (Position.new 1 0 1)] _ rfl,
   C1_no_self_intersection.2.2.1 _ (Position.new 0 0 0) (Position.new 1 0 1)
     rfl (by decide) (by decide)⟩

/-- C2: for every world line with a current position `c` and every target
`pos`, `extend pos` succeeds only if `pos.t = c.t + 1` and the spatial
Manhattan distance from `c` to `pos` is at most 1; for every other delta it
fails with an `InvalidStep` error; and on any failure the world line is
unchanged. -/
theorem C2_extend_causal_step_law :
    ∀ (wl : WorldLine) (c pos : Position), wl.current = some c →
      (((wl.extend pos).1 = Except.ok () → pos.is_valid_step_from c = true)
       ∧ (pos.is_valid_step_from c = false →
           wl.extend pos =
             (Except.error (WorldLineError.invalidStep c.x c.y c.t pos.x pos.y pos.t), wl))
       ∧ (∀ e, (wl.extend pos).1 = Except.error e → (wl.extend pos).2 = wl)) := by
  intro wl c pos hcur
  refine ⟨?_, ?_, ?_⟩
  · intro hok
    by_contra hstep
    rw [Bool.not_eq_true] at hstep
    simp [WorldLine.extend, hcur, hstep] at hok
  · intro hstep
    simp [WorldLine.extend, hcur, hstep]
  · intro e herr
    by_cases hstep : pos.is_valid_step_from c
    · by_cases hint : wl.would_intersect pos
      · simp [WorldLine.extend, hcur, hstep, hint]
      · simp [WorldLine.extend, hcur, hstep, hint] at herr
    · simp [WorldLine.extend, hcur, Bool.not_eq_true .. ▸ hstep]

/-- C2 witness: from the fresh world line at `(0,0,0)`, the successful step
to `(1,0,1)` is a valid causal step, and the jump to `(5,0,1)` fails with
`InvalidStep`, leaving the world line unchanged. -/
theorem C2_extend_causal_step_law_witness :
    (Position.new 1 0 1).is_valid_step_from (Position.new 0 0 0) = true
    ∧ (WorldLine.new (Position.new 0 0 0)).extend (Position.new 5 0 1)
        = (Except.error (WorldLineError.invalidStep 0 0 0 5 0 1),
           WorldLine.new (Position.new 0 0 0)) :=
  ⟨(C2_extend_causal_step_law (WorldLine.new (Position.new 0 0 0))
      (Position.new 0 0 0) (Position.new 1 0 1) rfl).1 rfl,
   (C2_extend_causal_step_law (WorldLine.new (Position.new 0 0 0))
      (Position.new 0 0 0) (Position.new 5 0 1) rfl).2.1 (by decide)⟩

/-- C9: patrol determinism. For every patrol with a non-empty path of
length `n` and every time `t ≥ 0`: when the patrol loops, `position_at t`
is `path[t % n]`; when it does not loop, `position_at t` is
`path[min t (n-1)]`, freezing at the last waypoint. -/
theorem C9_patrol_determinism :
    ∀ (p : PatrolData) (t : Int) (h : p.path ≠ []), 0 ≤ t →
      (p.loops = true →
        p.position_at t =
          p.path.get ⟨t.toNat % p.path.length, Nat.mod_lt _ (List.length_pos.mpr h)⟩)
      ∧ (p.loops = false →
        p.position_at t =
          p.path.get ⟨min t.toNat (p.path.length - 1), by
            have := List.length_pos.mpr h; omega⟩) := by
  intro p t h _
  have hlen := List.length_pos.mpr h
  constructor
  · intro hl
    rw [PatrolData.position_at]
    simp only [hl, if_true]
    exact List.getD_eq_get _ _ (Nat.mod_lt _ hlen)
  · intro hl
    rw [PatrolData.position_at]
    simp only [hl, if_false, Bool.false_eq_true]
    exact List.getD_eq_get _ _ (by omega)

/-- C9 witness: a two-waypoint patrol at `t = 5` resolves to waypoint index
`5 % 2 = 1` when looping and to the final waypoint when not looping. -/
theorem C9_patrol_determinism_witness :
    (⟨[SpatialPos.new 0 0, SpatialPos.new 7 3], true⟩ : PatrolData).position_at 5
      = SpatialPos.new 7 3
    ∧ (⟨[SpatialPos.new 0 0, SpatialPos.new 7 3], false⟩ : PatrolData).position_at 5
      = SpatialPos.new 7 3 := by
  constructor
  · rw [(C9_patrol_determinism ⟨[SpatialPos.new 0 0, SpatialPos.new 7 3], true⟩ 5
      (by decide) (by decide)).1 rfl]
    rfl
  · rw [(C9_patrol_determinism ⟨[SpatialPos.new 0 0, SpatialPos.new 7 3], false⟩ 5
      (by decide) (by decide)).2 rfl]
    rfl

/-! ### Helper lemmas about the cube operations -/

theorem listModify_getElem? (f : α → α) (n m : Nat) (l : List α) :
    (listModify f n l)[m]? = if m = n then (l[m]?).map f else l[m]? := by
  induction l generalizing n m with
  | nil => simp [listModify]
  | cons a as ih =>
    cases n with
    | zero =>
      cases m with
      | zero => simp [listModify]
      | succ k => simp [listModify]
    | succ j =>
      cases m with
      | zero => simp [listModify]
      | succ k => simpa [listModify] using ih j k

theorem listModify_length (f : α → α) (n : Nat) (l : List α) :
    (listModify f n l).length = l.length := by
  induction l generalizing n with
  | nil => simp [listModify]
  | cons a as ih =>
    cases n with
    | zero => simp [listModify]
    | succ j => simpa [listModify] using ih j

theorem slice_modifySlice (c : TimeCube) (t t' : Int) (f : TimeSlice → TimeSlice) :
    (c.modifySlice t f).slice t' = if t' = t then (c.slice t).map f else c.slice t' := by
  unfold TimeCube.modifySlice TimeCube.slice
  by_cases ht : t < 0
  · rw [if_pos ht]
    by_cases heq : t' = t
    · subst heq; simp [if_pos ht]
    · rw [if_neg heq]
  · rw [if_neg ht]
    by_cases ht' : t' < 0
    · rw [if_pos ht']
      by_cases heq : t' = t
      · omega
      · rw [if_neg heq, if_pos ht']
    · rw [if_neg ht']
      simp only [listModify_getElem?]
      by_cases heq : t' = t
      · subst heq
        rw [if_pos rfl, if_pos rfl, if_neg ht']
      · rw [if_neg heq, if_neg (by omega : ¬t'.toNat = t.toNat), if_neg ht']

theorem modifySlice_time_depth (c : TimeCube) (t : Int) (f : TimeSlice → TimeSlice) :
    (c.modifySlice t f).time_depth = c.time_depth := by
  unfold TimeCube.modifySlice
  split <;> rfl

theorem modifySlice_slices_length (c : TimeCube) (t : Int) (f : TimeSlice → TimeSlice) :
    (c.modifySlice t f).slices.length = c.slices.length := by
  unfold TimeCube.modifySlice
  split
  · rfl
  · simp [listModify_length]

theorem find?_filter_of_imp (l : List α) (p q : α → Bool)
    (h : ∀ x, p x = true → q x = true) :
    (l.filter q).find? p = l.find? p := by
  induction l with
  | nil => simp
  | cons a as ih =>
    by_cases hp : p a
    · have hq := h a hp
      simp [List.filter_cons, hq, List.find?_cons, hp, ih]
    · by_cases hq : q a
      · simp [List.filter_cons, hq, List.find?_cons, hp, ih]
      · simp only [List.filter_cons, hq, if_neg, List.find?_cons, hp]
        simpa [List.find?_cons, hp] using ih

theorem entity_add_self (s : TimeSlice) (e : Entity) :
    (s.add_entity e).entity e.id = some e := by
  unfold TimeSlice.add_entity TimeSlice.entity
  rw [List.find?_append]
  have : (s.entities.filter fun x => !(x.id == e.id)).find? (fun x => x.id == e.id) = none := by
    rw [List.find?_eq_none]
    intro x hx
    have := (List.mem_filter.mp hx).2
    simpa using this
  simp [this]

theorem entity_add_other (s : TimeSlice) (e : Entity) (id : EntityId) (h : ¬id = e.id) :
    (s.add_entity e).entity id = s.entity id := by
  unfold TimeSlice.add_entity TimeSlice.entity
  rw [List.find?_append]
  have h1 : (s.entities.filter fun x => !(x.id == e.id)).find? (fun x => x.id == id)
      = s.entities.find? (fun x => x.id == id) := by
    apply find?_filter_of_imp
    intro x hx
    have hxid : x.id = id := by simpa using hx
    simp [hxid, h]
  have h2 : ([e].find? fun x => x.id == id) = none := by
    rw [List.find?_eq_none]
    intro x hx
    have hxe : x = e := by simpa using hx
    have hne : ¬x.id = id := by rw [hxe]; exact fun hc => h hc.symm
    simpa using hne
  rw [h1, h2]
  cases s.entities.find? (fun x => x.id == id) <;> rfl

theorem remove_entity_fst (s : TimeSlice) (id : EntityId) :
    (s.remove_entity id).1 = s.entity id := by
  unfold TimeSlice.remove_entity TimeSlice.entity
  cases s.entities.find? (fun e => e.id == id) <;> rfl

theorem remove_entity_none (s : TimeSlice) (id : EntityId) :
    ((s.remove_entity id).2).entity id = none := by
  unfold TimeSlice.remove_entity
  rcases hf : s.entities.find? (fun e => e.id == id) with _ | e <;> rw [hf]
  · simpa [TimeSlice.entity] using hf
  · simp only [TimeSlice.entity]
    rw [List.find?_eq_none]
    intro x hx
    have := (List.mem_filter.mp hx).2
    simpa using this

theorem mem_intRange {a b t : Int} : t ∈ intRange a b ↔ a ≤ t ∧ t < b := by
  simp only [intRange, List.mem_map, List.mem_range]
  constructor
  · rintro ⟨i, hi, rfl⟩
    omega
  · rintro ⟨h1, h2⟩
    refine ⟨(t - a).toNat, ?_, ?_⟩
    · omega
    · omega

theorem nodup_intRange (a b : Int) : (intRange a b).Nodup := by
  unfold intRange
  refine List.Nodup.map ?_ (List.nodup_range _)
  intro i j hij
  simp only at hij
  omega

theorem length_intRange (a b : Int) : (intRange a b).length = (b - a).toNat := by
  simp [intRange]

theorem at_time_id (e : Entity) (t : Int) : (e.at_time t).id = e.id := rfl

theorem at_time_self (e : Entity) : e.at_time e.position.t = e := rfl

theorem fold_modify_slice_not_mem (c1 : TimeCube) (g : Int → TimeSlice → TimeSlice)
    (ts : List Int) (t : Int) (h : t ∉ ts) :
    (ts.foldl (fun acc u => acc.modifySlice u (g u)) c1).slice t = c1.slice t := by
  induction ts generalizing c1 with
  | nil => rfl
  | cons u rest ih =>
    have hne : ¬t = u := fun hc => h (hc ▸ List.mem_cons_self u rest)
    have hrest : t ∉ rest := fun hc => h (List.mem_cons_of_mem u hc)
    simp only [List.foldl_cons]
    rw [ih _ hrest, slice_modifySlice, if_neg hne]

theorem fold_modify_slice_mem (c1 : TimeCube) (g : Int → TimeSlice → TimeSlice)
    (ts : List Int) (t : Int) (hnd : ts.Nodup) (h : t ∈ ts) :
    (ts.foldl (fun acc u => acc.modifySlice u (g u)) c1).slice t = (c1.slice t).map (g t) := by
  induction ts generalizing c1 with
  | nil => exact absurd h (List.not_mem_nil t)
  | cons u rest ih =>
    simp only [List.foldl_cons]
    rcases List.mem_cons.mp h with rfl | hmem
    · have hrest : t ∉ rest := (List.nodup_cons.mp hnd).1
      rw [fold_modify_slice_not_mem _ _ _ _ hrest, slice_modifySlice, if_pos rfl]
    · by_cases heq : t = u
      · subst heq
        have hrest : t ∉ rest := (List.nodup_cons.mp hnd).1
        exact absurd hmem hrest
      · rw [ih _ (List.nodup_cons.mp hnd).2 hmem, slice_modifySlice, if_neg heq]

theorem fold_modify_time_depth (c1 : TimeCube) (g : Int → TimeSlice → TimeSlice)
    (ts : List Int) :
    (ts.foldl (fun acc u => acc.modifySlice u (g u)) c1).time_depth = c1.time_depth := by
  induction ts generalizing c1 with
  | nil => rfl
  | cons u rest ih =>
    simp only [List.foldl_cons]
    rw [ih, modifySlice_time_depth]

theorem fold_modify_slices_length (c1 : TimeCube) (g : Int → TimeSlice → TimeSlice)
    (ts : List Int) :
    (ts.foldl (fun acc u => acc.modifySlice u (g u)) c1).slices.length = c1.slices.length := by
  induction ts generalizing c1 with
  | nil => rfl
  | cons u rest ih =>
    simp only [List.foldl_cons]
    rw [ih, modifySlice_slices_length]

theorem despawn_all_entity_none (c : TimeCube) (id : EntityId) (t : Int) :
    ((c.despawn_all id).2).entity_at_time id t = none := by
  unfold TimeCube.despawn_all TimeCube.entity_at_time TimeCube.slice
  by_cases ht : t < 0
  · simp [ht]
  · simp only [ht, if_neg, List.map_map, List.getElem?_map]
    rcases hs : c.slices[t.toNat]? with _ | s
    · simp
    · simpa using remove_entity_none s id

theorem despawn_all_fst (c : TimeCube) (id : EntityId) :
    (c.despawn_all id).1 = c.slices.filterMap fun s => s.entity id := by
  unfold TimeCube.despawn_all
  simp only [List.filterMap_map]
  refine List.filterMap_congr ?_
  intro s _
  exact remove_entity_fst s id

theorem filterMap_eq_range_filterMap (l : List α) (f : α → Option β) (g : Nat → Option β)
    (h : ∀ (n : Nat) (hn : n < l.length), f (l.get ⟨n, hn⟩) = g n) :
    l.filterMap f = (List.range l.length).filterMap g := by
  induction l generalizing g with
  | nil => rfl
  | cons a as ih =>
    rw [List.filterMap_cons, List.length_cons, List.range_succ_eq_map,
      List.filterMap_cons, List.filterMap_map]
    have h0 : f a = g 0 := h 0 (Nat.succ_pos _)
    have hrec : as.filterMap f = (List.range as.length).filterMap (g ∘ Nat.succ) :=
      ih (g ∘ Nat.succ) fun n hn => h (n + 1) (Nat.succ_lt_succ hn)
    rw [← h0, hrec]

theorem range_filterMap_if (a b : Nat) (F : Nat → β) :
    (List.range b).filterMap (fun n => if a ≤ n then some (F n) else none)
      = (List.range (b - a)).map fun i => F (a + i) := by
  induction b with
  | zero => simp
  | succ b ih =>
    rw [List.range_succ, List.filterMap_append, ih]
    by_cases hab : a ≤ b
    · have hsub : b + 1 - a = (b - a) + 1 := by omega
      rw [hsub, List.range_succ, List.map_append]
      simp only [List.filterMap_cons, List.filterMap_nil, if_pos hab, List.map_cons,
        List.map_nil]
      have : a + (b - a) = b := by omega
      rw [this]
    · have hsub : b + 1 - a = 0 := by omega
      have hsub2 : b - a = 0 := by omega
      rw [hsub, hsub2]
      simp [List.filterMap_cons, if_neg hab]

/-- C4: propagation consistency of `spawn_and_propagate` and `despawn_all`.
For a time-persistent entity spawned in-bounds at `t0` into a cube with no
entity of that id: the call succeeds, an instance with the same id and the
same spatial cell exists at every `t ∈ [t0, time_depth)` (and at no other
time), a subsequent `despawn_all` returns exactly one removed instance per
slice in `[t0, time_depth)` and leaves no slice containing the id. If
instead some target slice in `[t0, time_depth)` already holds the id, the
call fails with `EntityAlreadyExists` and returns the cube unchanged,
writing no slice at all. -/
theorem C4_spawn_and_propagate_consistency :
    ∀ (c : TimeCube) (entity : Entity),
      c.slices.length = c.time_depth.toNat →
      entity.is_time_persistent = true →
      c.in_bounds entity.position = true →
      (((∀ t : Int, c.entity_at_time entity.id t = none) →
        ∃ c₂ : TimeCube,
          c.spawn_and_propagate entity = (Except.ok entity.id, c₂)
          ∧ (∀ t : Int, c₂.entity_at_time entity.id t =
              if entity.position.t ≤ t ∧ t < c.time_depth then some (entity.at_time t)
              else none)
          ∧ (c₂.despawn_all entity.id).1
              = (intRange entity.position.t c.time_depth).map (fun t => entity.at_time t)
          ∧ (∀ t : Int, ((c₂.despawn_all entity.id).2).entity_at_time entity.id t = none))
       ∧ ((∃ t0 : Int, entity.position.t ≤ t0 ∧ t0 < c.time_depth ∧
            (c.entity_at_time entity.id t0).isSome = true) →
          ∃ t₁ : Int, c.spawn_and_propagate entity =
            (Except.error (CubeError.entityAlreadyExists entity.id t₁), c))) := by
  intro c entity hlen hper hin
  obtain ⟨hx0, hy0, ht0, hxw, hyh, htd⟩ :
      0 ≤ entity.position.x ∧ 0 ≤ entity.position.y ∧ 0 ≤ entity.position.t ∧
      entity.position.x < c.width ∧ entity.position.y < c.height ∧
      entity.position.t < c.time_depth := by
    simpa [TimeCube.in_bounds] using hin
  have hval : c.validate_position entity.position = Except.ok () := by
    simp [TimeCube.validate_position, hin]
  have hslice : ∀ t : Int, 0 ≤ t → t < c.time_depth → ∃ s, c.slice t = some s := by
    intro t h1 h2
    have hlt : t.toNat < c.slices.length := by omega
    refine ⟨c.slices[t.toNat], ?_⟩
    unfold TimeCube.slice
    rw [if_neg (by omega : ¬t < 0)]
    exact List.getElem?_eq_getElem hlt
  obtain ⟨s0, hs0⟩ := hslice entity.position.t ht0 htd
  constructor
  · -- clean cube: successful propagation
    intro hclean
    have hs0e : s0.entity entity.id = none := by
      have h := hclean entity.position.t
      rw [TimeCube.entity_at_time, hs0] at h
      simpa using h
    have hspawn : c.spawn entity =
        (Except.ok entity.id, c.modifySlice entity.position.t (·.add_entity entity)) := by
      unfold TimeCube.spawn
      rw [hval]
      simp [hs0, hs0e]
    have hnoconf :
        firstConflict c entity.id (intRange (entity.position.t + 1) c.time_depth) = none := by
      unfold firstConflict
      rw [List.find?_eq_none]
      intro t ht
      obtain ⟨h1, h2⟩ := mem_intRange.mp ht
      obtain ⟨s, hs⟩ := hslice t (by omega) h2
      have h := hclean t
      rw [TimeCube.entity_at_time, hs, Option.some_bind] at h
      simp [hs, h]
    set ts := intRange (entity.position.t + 1) c.time_depth with hts
    set c1 := c.modifySlice entity.position.t (·.add_entity entity) with hc1
    set c2 := ts.foldl (fun acc u => acc.modifySlice u (·.add_entity (entity.at_time u))) c1
      with hc2
    have hrun : c.spawn_and_propagate entity = (Except.ok entity.id, c2) := by
      unfold TimeCube.spawn_and_propagate
      rw [hval]
      simp only [hs0, hs0e, hper, hspawn, Option.isSome_none, Bool.false_eq_true,
        if_false, if_true, hnoconf]
    have hclaim : ∀ t : Int, c2.entity_at_time entity.id t =
        if entity.position.t ≤ t ∧ t < c.time_depth then some (entity.at_time t)
        else none := by
      intro t
      by_cases h1 : t = entity.position.t
      · subst h1
        have hnot : entity.position.t ∉ ts := by
          intro hc
          have := (mem_intRange.mp hc).1
          omega
        rw [TimeCube.entity_at_time, hc2, fold_modify_slice_not_mem _ _ _ _ hnot, hc1,
          slice_modifySlice, if_pos rfl, hs0]
        rw [Option.map_some', Option.some_bind, if_pos ⟨le_refl _, htd⟩, at_time_self]
        exact entity_add_self s0 entity
      · by_cases h2 : t ∈ ts
        · obtain ⟨hge, hlt⟩ := mem_intRange.mp h2
          obtain ⟨s, hs⟩ := hslice t (by omega) hlt
          rw [TimeCube.entity_at_time, hc2,
            fold_modify_slice_mem _ _ _ _ (nodup_intRange _ _) h2, hc1,
            slice_modifySlice, if_neg h1, hs]
          rw [Option.map_some', Option.some_bind, if_pos ⟨by omega, hlt⟩]
          have := entity_add_self s (entity.at_time t)
          rw [at_time_id] at this
          exact this
        · have hcond : ¬(entity.position.t ≤ t ∧ t < c.time_depth) := by
            intro ⟨ha, hb⟩
            exact h2 (mem_intRange.mpr ⟨by omega, hb⟩)
          rw [TimeCube.entity_at_time, hc2, fold_modify_slice_not_mem _ _ _ _ h2, hc1,
            slice_modifySlice, if_neg h1, if_neg hcond]
          have h := hclean t
          rw [TimeCube.entity_at_time] at h
          exact h
    refine ⟨c2, hrun, hclaim, ?_, fun t => despawn_all_entity_none c2 entity.id t⟩
    -- the removed list of despawn_all
    have hlen2 : c2.slices.length = c.time_depth.toNat := by
      rw [hc2, fold_modify_slices_length, hc1, modifySlice_slices_length, hlen]
    rw [despawn_all_fst]
    have hstep1 : c2.slices.filterMap (fun s => s.entity entity.id)
        = (List.range c2.slices.length).filterMap
            (fun (n : Nat) => if entity.position.t ≤ (n : Int) ∧ (n : Int) < c.time_depth
              then some (entity.at_time (n : Int)) else none) := by
      apply filterMap_eq_range_filterMap
      intro n hn
      have hget : c2.slice (n : Int) = some (c2.slices.get ⟨n, hn⟩) := by
        unfold TimeCube.slice
        rw [if_neg (by omega : ¬(n : Int) < 0)]
        simpa using List.getElem?_eq_getElem hn
      have h := hclaim (n : Int)
      rw [TimeCube.entity_at_time, hget] at h
      simpa using h
    rw [hstep1, hlen2]
    have hstep2 : (List.range c.time_depth.toNat).filterMap
          (fun (n : Nat) => if entity.position.t ≤ (n : Int) ∧ (n : Int) < c.time_depth
            then some (entity.at_time (n : Int)) else none)
        = (List.range c.time_depth.toNat).filterMap
            (fun (n : Nat) => if entity.position.t.toNat ≤ n
              then some (entity.at_time (n : Int)) else none) := by
      apply List.filterMap_congr
      intro n hn
      rw [List.mem_range] at hn
      by_cases hc : entity.position.t.toNat ≤ n
      · rw [if_pos (by omega), if_pos hc]
      · rw [if_neg (by omega), if_neg hc]
    rw [hstep2, range_filterMap_if]
    rw [intRange, List.map_map]
    have harg : c.time_depth.toNat - entity.position.t.toNat
        = (c.time_depth - entity.position.t).toNat := by omega
    rw [harg]
    apply List.map_congr_left
    intro i _
    simp only [Function.comp]
    congr 1
    omega
  · -- conflicting cube: error, cube unchanged
    intro ⟨t0, hge, hlt, hsome⟩
    by_cases horig : (s0.entity entity.id).isSome
    · refine ⟨entity.position.t, ?_⟩
      unfold TimeCube.spawn_and_propagate
      rw [hval]
      simp only [hs0, horig, if_true]
    · have hofalse : (s0.entity entity.id).isSome = false := by
        simpa using horig
      have ht0ne : ¬t0 = entity.position.t := by
        intro hc
        rw [TimeCube.entity_at_time, hc, hs0, Option.some_bind] at hsome
        exact horig hsome
      have hmem : t0 ∈ intRange (entity.position.t + 1) c.time_depth :=
        mem_intRange.mpr ⟨by omega, hlt⟩
      have hpred : (match c.slice t0 with
          | some s => (s.entity entity.id).isSome
          | none => false) = true := by
        obtain ⟨s, hs⟩ := hslice t0 (by omega) hlt
        rw [TimeCube.entity_at_time, hs, Option.some_bind] at hsome
        rw [hs]
        exact hsome
      have hfc : (firstConflict c entity.id
          (intRange (entity.position.t + 1) c.time_depth)).isSome := by
        unfold firstConflict
        rw [List.find?_isSome]
        exact ⟨t0, hmem, hpred⟩
      obtain ⟨t₁, hfc1⟩ := Option.isSome_iff_exists.mp hfc
      refine ⟨t₁, ?_⟩
      unfold TimeCube.spawn_and_propagate
      rw [hval]
      simp only [hs0, hofalse, Bool.false_eq_true, if_false, hper, if_true, hfc1]

/-- C4 witness: a wall spawned at `(0,0,1)` in an empty `2×2×3` cube exists
at `t = 1` and `t = 2`, `despawn_all` returns exactly those two instances
and leaves no slice holding the id. -/
theorem C4_spawn_and_propagate_consistency_witness :
    ∃ c₂ : TimeCube,
      (TimeCube.new 2 2 3).spawn_and_propagate (Entity.wall 1 (Position.new 0 0 1))
        = (Except.ok 1, c₂)
      ∧ c₂.entity_at_time 1 2 = some ((Entity.wall 1 (Position.new 0 0 1)).at_time 2)
      ∧ (c₂.despawn_all 1).1
          = [(Entity.wall 1 (Position.new 0 0 1)).at_time 1,
             (Entity.wall 1 (Position.new 0 0 1)).at_time 2]
      ∧ ((c₂.despawn_all 1).2).entity_at_time 1 1 = none := by
  have hclean : ∀ t : Int, (TimeCube.new 2 2 3).entity_at_time 1 t = none := by
    intro t
    unfold TimeCube.entity_at_time TimeCube.slice
    by_cases ht : t < 0
    · rw [if_pos ht]; rfl
    · rw [if_neg ht]
      rcases ht2 : t.toNat with _ | _ | _ | n <;> rfl
  obtain ⟨c₂, hrun, hclaim, hdesp, hnone⟩ :=
    (C4_spawn_and_propagate_consistency (TimeCube.new 2 2 3)
      (Entity.wall 1 (Position.new 0 0 1)) rfl rfl (by decide)).1 hclean
  have hid : (Entity.wall 1 (Position.new 0 0 1)).id = 1 := rfl
  rw [hid] at hrun hclaim hdesp hnone
  refine ⟨c₂, hrun, ?_, ?_, hnone 1⟩
  · rw [hclaim 2, if_pos (by decide)]
  · rw [hdesp]
    rfl

/-! ## Light cone geometry (`src/core/light_cone.rs`) -/

/-- One iteration step of the Bresenham loop, with explicit fuel. The
source's `loop` moves at least one coordinate one unit towards the target
per iteration, so it runs at most `dx + dy` iterations past the start;
the fuel supplied by `bresenham_line` is therefore never exhausted. -/
def bresenhamAux (x2 y2 sx sy dx dy : Int) :
    Nat → Int → Int → Int → List (Int × Int)
  | 0, _, _, _ => []
  | fuel + 1, err, x, y =>
    (x, y) ::
      (if x == x2 && y == y2 then []
       else
         let e2 := 2 * err
         let err1 := if e2 > -dy then err - dy else err
         let x1 := if e2 > -dy then x + sx else x
         let err2 := if e2 < dx then err1 + dx else err1
         let y1 := if e2 < dx then y + sy else y
         bresenhamAux x2 y2 sx sy dx dy fuel err2 x1 y1)

/-- Bresenham's line rasterization (`bresenham_line`). -/
def bresenham_line (x1 y1 x2 y2 : Int) : List (Int × Int) :=
  let dx := (x2 - x1).natAbs
  let dy := (y2 - y1).natAbs
  let sx : Int := if x1 < x2 then 1 else -1
  let sy : Int := if y1 < y2 then 1 else -1
  bresenhamAux x2 y2 sx sy (dx : Int) (dy : Int) (dx + dy + 1) ((dx : Int) - (dy : Int)) x1 y1

/-- Line-of-sight obstruction at time `t` (`is_line_blocked`): some cell of
the rasterized line other than the two endpoints blocks vision in the slice
at `t`. -/
def is_line_blocked (cube : TimeCube) (frm dst : SpatialPos) (t : Int) : Bool :=
  (bresenham_line frm.x frm.y dst.x dst.y).any fun p =>
    if (p.1 == frm.x && p.2 == frm.y) || (p.1 == dst.x && p.2 == dst.y) then false
    else cube.blocks_vision (Position.new p.1 p.2 t)

/-! ## Detection engine (`src/core/detection.rs`) -/

/-- Detection model selector (`DetectionModel`). -/
inductive DetectionModel where
  | discreteDelay
  | lightCone
deriving DecidableEq, Repr

/-- Detection configuration (`DetectionConfig`). -/
structure DetectionConfig where
  model : DetectionModel
  delay_turns : Int
  vision_radius : Int
deriving DecidableEq, Repr

/-- Result of a detection check (`DetectionResult`). -/
structure DetectionResult where
  enemy_id : EntityId
  enemy_position : Position
  player_position : Position
deriving DecidableEq, Repr

/-- Modelled from the spec: `WorldLine::max_t`. The method is called by
`check_detection` but its definition is not among the provided sources;
per the spec the detection scan runs "time ascending from 0 to the
player's maximum recorded time", so this returns the maximum `t` over all
recorded positions (`none` for an empty line). -/
def WorldLine.max_t (wl : WorldLine) : Option Int :=
  match wl.path with
  | [] => none
  | p :: rest => some (rest.foldl (fun m q => max m q.t) p.t)

/-- Modelled from the spec: `WorldLine::current_position_at_time`. The
method is called by `check_discrete_delay` but its definition is not among
the provided sources; per the spec the enemy "perceives the player's
position exactly `delay_turns` turns earlier" and several turns may share a
time, so this returns the most recently recorded (latest-turn) position
with the given `t`. -/
def WorldLine.current_position_at_time (wl : WorldLine) (t : Int) : Option Position :=
  (wl.path.filter fun p => p.t == t).getLast?

/-- Enemy spatial position at a time (`get_enemy_spatial_position`):
patrol-driven when a patrol is present, static otherwise. -/
def get_enemy_spatial_position (enemy : Entity) (t : Int) : SpatialPos :=
  match enemy.patrol_data with
  | some patrol => patrol.position_at t
  | none => enemy.position.spatial

/-- Discrete-delay perception check (`check_discrete_delay`): the enemy at
`te` perceives the player's recorded position at `tp = te - delay_turns`;
no perception for `tp < 0`; detection requires Manhattan distance within
`vision_radius` and an unobstructed line of sight at `te`. -/
def check_discrete_delay (cube : TimeCube) (world_line : WorldLine)
    (config : DetectionConfig) (enemy : Entity) (enemy_pos : Position) (te : Int) :
    Option DetectionResult :=
  let tp := te - config.delay_turns
  if tp < 0 then none
  else
    match world_line.current_position_at_time tp with
    | none => none
    | some player_pos =>
      let player_spatial := player_pos.spatial
      let enemy_spatial := enemy_pos.spatial
      let distance := SpatialPos.manhattan_distance enemy_spatial player_spatial
      if distance > config.vision_radius then none
      else if is_line_blocked cube enemy_spatial player_spatial te then none
      else some ⟨enemy.id, enemy_pos, player_pos⟩

/-- Light-cone perception check (`check_light_cone`): first recorded player
position with `tp < te` within `light_speed × (te - tp)` and
`vision_radius`, gated by line of sight at `te`. -/
def check_light_cone (cube : TimeCube) (world_line : WorldLine)
    (config : DetectionConfig) (enemy : Entity) (enemy_pos : Position) (te : Int) :
    Option DetectionResult :=
  let enemy_spatial := enemy_pos.spatial
  let light_speed : Int :=
    match enemy.vision_data with
    | some v => (v.light_speed : Int)
    | none => 3
  (world_line.path.filter fun pos => decide (pos.t < te)).findSome? fun player_pos =>
    let time_delta := te - player_pos.t
    let player_spatial := player_pos.spatial
    let distance := SpatialPos.manhattan_distance enemy_spatial player_spatial
    let max_distance := light_speed * time_delta
    if decide (distance ≤ max_distance) && decide (distance ≤ config.vision_radius)
        && !is_line_blocked cube enemy_spatial player_spatial te then
      some ⟨enemy.id, enemy_pos, player_pos⟩
    else none

/-- Per-enemy dispatch (`check_enemy_at_time`). -/
def check_enemy_at_time (cube : TimeCube) (world_line : WorldLine)
    (config : DetectionConfig) (enemy : Entity) (te : Int) : Option DetectionResult :=
  let enemy_spatial := get_enemy_spatial_position enemy te
  let enemy_pos := Position.new enemy_spatial.x enemy_spatial.y te
  match config.model with
  | .discreteDelay => check_discrete_delay cube world_line config enemy enemy_pos te
  | .lightCone => check_light_cone cube world_line config enemy enemy_pos te

/-- Top-level detection scan (`check_detection`): the first qualifying
(enemy, time) pair with `te` ascending from 0 to the player's maximum
recorded time, enemies in slice order. -/
def check_detection (cube : TimeCube) (world_line : WorldLine)
    (config : DetectionConfig) : Option DetectionResult :=
  match world_line.max_t with
  | none => none
  | some max_t =>
    (intRange 0 (max_t + 1)).findSome? fun te =>
      (cube.enemies_at te).findSome? fun enemy =>
        check_enemy_at_time cube world_line config enemy te

/-- C3: discrete-delay perception. An enemy observing at `te` perceives the
player's recorded position at exactly `tp = te - delay_turns`; when
`tp < 0` no perception is possible; and a detection is reported only when
the Manhattan distance between the enemy's position at `te` and that
player position is within `vision_radius` and the rasterized line between
the two cells is unobstructed (`is_line_blocked`, which skips the
endpoints and tests vision blockers in the slice at `te`, is false). -/
theorem C3_discrete_delay_model :
    ∀ (cube : TimeCube) (wl : WorldLine) (config : DetectionConfig)
      (enemy : Entity) (enemy_pos : Position) (te : Int),
      (te - config.delay_turns < 0 →
        check_discrete_delay cube wl config enemy enemy_pos te = none)
      ∧ (∀ r, check_discrete_delay cube wl config enemy enemy_pos te = some r →
          ∃ player_pos,
            wl.current_position_at_time (te - config.delay_turns) = some player_pos
            ∧ r = ⟨enemy.id, enemy_pos, player_pos⟩
            ∧ SpatialPos.manhattan_distance enemy_pos.spatial player_pos.spatial
                ≤ config.vision_radius
            ∧ is_line_blocked cube enemy_pos.spatial player_pos.spatial te = false) := by
  intro cube wl config enemy enemy_pos te
  constructor
  · intro hneg
    unfold check_discrete_delay
    rw [if_pos hneg]
  · intro r hr
    unfold check_discrete_delay at hr
    dsimp only at hr
    split at hr
    · exact absurd hr (by simp)
    · rcases hpp : wl.current_position_at_time (te - config.delay_turns) with _ | player_pos
      · rw [hpp] at hr
        exact absurd hr (by simp)
      · rw [hpp] at hr
        dsimp only at hr
        refine ⟨player_pos, rfl, ?_⟩
        by_cases hdist :
            enemy_pos.spatial.manhattan_distance player_pos.spatial > config.vision_radius
        · rw [if_pos hdist] at hr
          exact absurd hr (by simp)
        · rw [if_neg hdist] at hr
          by_cases hblock : is_line_blocked cube enemy_pos.spatial player_pos.spatial te
          · rw [if_pos hblock] at hr
            exact absurd hr (by simp)
          · rw [if_neg hblock] at hr
            refine ⟨(Option.some.inj hr).symm, by omega, by simpa using hblock⟩

/-- C3 witness: with `delay_turns = 2` and `vision_radius = 5`, an enemy at
`(5,2)` observing at `te = 2` in an empty cube perceives the player
recorded at `(2,2,0)` (distance 3, unobstructed line), and at `te = 1` the
perception time would be negative so no detection is possible. -/
theorem C3_discrete_delay_model_witness :
    check_discrete_delay (TimeCube.new 10 10 5) (WorldLine.new (Position.new 2 2 0))
      ⟨.discreteDelay, 2, 5⟩ (Entity.exitEntity 1 (Position.new 5 2 0))
      (Position.new 5 2 2) 1 = none
    ∧ (1 : Int) - 2 < 0
    ∧ SpatialPos.manhattan_distance (Position.new 5 2 2).spatial
        (Position.new 2 2 0).spatial ≤ 5
    ∧ is_line_blocked (TimeCube.new 10 10 5) (Position.new 5 2 2).spatial
        (Position.new 2 2 0).spatial 2 = false :=
  ⟨(C3_discrete_delay_model (TimeCube.new 10 10 5) (WorldLine.new (Position.new 2 2 0))
      ⟨.discreteDelay, 2, 5⟩ (Entity.exitEntity 1 (Position.new 5 2 0))
      (Position.new 5 2 2) 1).1 (by decide),
   by decide, by decide, by decide⟩

/-! ## Propagation engine (`src/core/propagation.rs`) -/

/-- Context of a propagation operation (`PropagationContext`); the
`HashSet` of affected ids is modelled as a list. -/
structure PropagationContext where
  dirty_from : Int
  affected_entities : List EntityId
  slices_updated : Nat
deriving DecidableEq, Repr

/-- Non-fatal propagation warnings (`PropagationWarning`). -/
inductive PropagationWarning where
  | entityCollision (entity_a entity_b : EntityId) (at_pos : Position)
  | outOfBounds (entity_id : EntityId) (attempted : Position)
deriving DecidableEq, Repr

/-- Result of a propagation operation (`PropagationResult`). -/
structure PropagationResult where
  context : PropagationContext
  warnings : List PropagationWarning
deriving DecidableEq, Repr

/-- Options for propagation (`PropagationOptions`). -/
structure PropagationOptions where
  only_entities : Option (List EntityId)
  stop_at : Option Int
  skip_collisions : Bool
deriving DecidableEq, Repr

/-- Rust `PropagationOptions::default()`. -/
def PropagationOptions.default : PropagationOptions := ⟨none, none, false⟩

/-- Propagated instance of an entity for a target slice
(`compute_propagated_entity`): patrol entities move to their patrol
position, others keep their spatial cell; non-persistent entities and the
player do not propagate. -/
def compute_propagated_entity (entity : Entity) (target_t : Int) : Option Entity :=
  if !entity.is_time_persistent || entity.is_player then none
  else
    let propagated := entity.at_time target_t
    match entity.patrol_data with
    | some patrol =>
      let new_spatial := patrol.position_at target_t
      some (propagated.at_position (Position.new new_spatial.x new_spatial.y target_t))
    | none => some propagated

/-- Collision test (`would_collide`). -/
def would_collide (a b : Entity) : Bool :=
  a.blocks_movement && b.blocks_movement && a.position.same_spacetime b.position

/-- Body of the per-entity loop of `propagate_from_with_options`,
accumulating `(to_add, position_map, warnings)`. The position map (a
`HashMap` keyed by position in the source) is modelled as an association
list consed at the front so that the latest insert wins a lookup. In the
source's second collision check — against entities already present in the
target slice — the `continue` under `skip_collisions` sits inside the
inner `for other` loop, so it only advances that inner loop and never
prevents the write; its only observable effect is the warnings pushed,
which is what this translation records. -/
def processEntity (cube : TimeCube) (opts : PropagationOptions) (target_t : Int)
    (acc : List Entity × List (Position × EntityId) × List PropagationWarning)
    (entity : Entity) :
    List Entity × List (Position × EntityId) × List PropagationWarning :=
  let (to_add, position_map, warnings) := acc
  match compute_propagated_entity entity target_t with
  | none => (to_add, position_map, warnings)
  | some propagated =>
    if !cube.in_bounds propagated.position then
      (to_add, position_map,
       warnings ++ [.outOfBounds propagated.id propagated.position])
    else
      let mapHit := position_map.find? fun e => e.1 == propagated.position
      let warnings1 :=
        match mapHit with
        | some existing =>
          warnings ++ [.entityCollision existing.2 propagated.id propagated.position]
        | none => warnings
      if (match mapHit with | some _ => opts.skip_collisions | none => false) then
        (to_add, position_map, warnings1)
      else
        let warnings2 :=
          match cube.slice target_t with
          | some slice =>
            warnings1 ++
              ((slice.entities_at propagated.position.spatial).filter fun other =>
                  !(other.id == propagated.id) && would_collide propagated other).map
                fun other => .entityCollision other.id propagated.id propagated.position
          | none => warnings1
        (to_add ++ [propagated],
         (propagated.position, propagated.id) :: position_map, warnings2)

/-- Body of the per-target-slice loop of `propagate_from_with_options`:
process every source entity, then write the collected instances into the
target slice (when it exists) and count the slice as updated. -/
def processTarget (source_entities : List Entity) (opts : PropagationOptions)
    (acc : TimeCube × List PropagationWarning × Nat) (target_t : Int) :
    TimeCube × List PropagationWarning × Nat :=
  let (cube, warnings, slices_updated) := acc
  let (to_add, _, warnings') :=
    source_entities.foldl (processEntity cube opts target_t) ([], [], warnings)
  if to_add.isEmpty then (cube, warnings', slices_updated)
  else
    (cube.modifySlice target_t (fun s => to_add.foldl TimeSlice.add_entity s),
     warnings', slices_updated + 1)

/-- Propagation with options (`propagate_from_with_options`): best-effort
forward cloning of the persistent non-player entities of the source slice
into every target slice up to `stop_at`. -/
def propagate_from_with_options (cube : TimeCube) (from_t : Int)
    (options : PropagationOptions) :
    Except CubeError PropagationResult × TimeCube :=
  match cube.slice from_t with
  | none => (.error (.timeSliceNotFound from_t), cube)
  | some source =>
    let stop_at := min (options.stop_at.getD (cube.time_depth - 1)) (cube.time_depth - 1)
    let source_entities := source.entities.filter fun e =>
      e.is_time_persistent && !e.is_player &&
        (match options.only_entities with
         | some only => only.contains e.id
         | none => true)
    let affected := source_entities.map (·.id)
    let result := (intRange (from_t + 1) (stop_at + 1)).foldl
      (processTarget source_entities options) (cube, [], 0)
    (.ok ⟨⟨from_t, affected, result.2.2⟩, result.2.1⟩, result.1)

/-- Propagation with default options (`propagate_from`). -/
def propagate_from (cube : TimeCube) (from_t : Int) :
    Except CubeError PropagationResult × TimeCube :=
  propagate_from_with_options cube from_t PropagationOptions.default

/-- Single-entity propagation (`propagate_entity`). -/
def propagate_entity (cube : TimeCube) (entity_id : EntityId) (from_t : Int) :
    Except CubeError PropagationResult × TimeCube :=
  propagate_from_with_options cube from_t ⟨some [entity_id], none, false⟩

/-- C8: evaluation of the code at the failing input. In a `3×3×2` cube with
a movement-blocking wall (id 1) already in the slice at `t = 1` at cell
`(1,1)` and another wall (id 2) at `(1,1,0)`, propagating from `t = 0`
with `skip_collisions` set succeeds and records the
`EntityCollision` warning between the two movement-blocking entities —
but the colliding entity id 2 is still written into the slice at `t = 1`,
even though `skip_collisions` is set: the source's `continue` under
`skip_collisions` in the check against entities already present in the
target slice only advances the inner `for other` loop and never skips the
write, contradicting the option's documented meaning ("Skip entities that
would collide (vs. still adding them)"). -/
theorem C8_propagation_skip_collisions_bug :
    (propagate_from_with_options
        (((TimeCube.new 3 3 2).spawn (Entity.wall 1 (Position.new 1 1 1))).2.spawn
          (Entity.wall 2 (Position.new 1 1 0))).2
        0 ⟨none, none, true⟩).1
      = Except.ok
          ⟨⟨0, [2], 1⟩, [PropagationWarning.entityCollision 1 2 (Position.new 1 1 1)]⟩
    ∧ ((propagate_from_with_options
        (((TimeCube.new 3 3 2).spawn (Entity.wall 1 (Position.new 1 1 1))).2.spawn
          (Entity.wall 2 (Position.new 1 1 0))).2
        0 ⟨none, none, true⟩).2).entity_at_time 2 1
      = some ((Entity.wall 2 (Position.new 1 1 0)).at_time 1) := by
  constructor <;> rfl

/-! ## Game state (`src/game/state.rs`) and actions (`src/game/actions.rs`) -/

/-- Current phase of the game (`GamePhase`). -/
inductive GamePhase where
  | playing
  | won
  | detected
  | paradox
  | restarted
deriving DecidableEq, Repr

/-- Session configuration (`GameConfig`). -/
structure GameConfig where
  light_speed : Nat
  max_push_chain : Nat
  level_name : String
  level_id : String
  allow_undo : Bool
  detection : DetectionConfig
deriving DecidableEq, Repr

/-- A player action (`Action`). -/
inductive Action where
  | move (dir : Direction)
  | wait
  | useRift
  | push (dir : Direction)
  | pull (dir : Direction)
  | restart
deriving DecidableEq, Repr

/-- The complete game state (`GameState`): cube, world line, player id,
phase, turn counter, history, config, and the frozen initial snapshots. -/
structure GameState where
  cube : TimeCube
  world_line : WorldLine
  player_id : EntityId
  phase : GamePhase
  turn : Nat
  history : List Action
  config : GameConfig
  initial_cube : TimeCube
  initial_world_line : WorldLine
deriving DecidableEq, Repr

/-- Current turn number (`WorldLine::current_turn`). -/
def WorldLine.current_turn (wl : WorldLine) : Option Nat :=
  if wl.path.isEmpty then none else some (wl.path.length - 1)

/-- Current player position (`GameState::player_position`); the source
`expect`s a non-empty world line, which `GameState` construction
guarantees — modelled with a default for the unreachable empty case. -/
def GameState.player_position (state : GameState) : Position :=
  state.world_line.current.getD (Position.new 0 0 0)

/-- Activity test (`GameState::is_active`). -/
def GameState.is_active (state : GameState) : Bool :=
  decide (state.phase = GamePhase.playing)

/-- Exit test (`GameState::at_exit`). -/
def GameState.at_exit (state : GameState) : Bool :=
  state.cube.is_exit state.player_position

/-- Move validation error (`MoveError`). -/
inductive MoveError where
  | outOfBounds (x y t : Int)
  | blocked (x y t : Int) (entity_id : EntityId) (entity_type : String)
  | selfIntersection (x y t : Int)
  | invalidDirection
  | timeOverflow (t max_t : Int)
deriving DecidableEq, Repr

/-- Action error (`ActionError`). -/
inductive ActionError where
  | gameNotActive (phase : GamePhase)
  | moveBlocked (e : MoveError)
  | noRiftHere
  | invalidRiftTarget (target : Position) (reason : String)
  | nothingToPush (direction : Direction)
  | pushBlocked (blocked_at : Position)
  | pushChainTooLong (chain_length : Nat) (max : Nat)
  | nothingToPull (direction : Direction)
  | notPullable (entity_id : EntityId)
  | internal (msg : String)
deriving DecidableEq, Repr

/-- Rust `Display` of `CubeError` (used in `ActionError::Internal`). -/
def CubeError.message : CubeError → String
  | .outOfBounds x y t mx my mt =>
    s!"Position out of bounds: ({x}, {y}, {t}) - valid range: x=[0,{mx}), y=[0,{my}), t=[0,{mt})"
  | .entityNotFound id => s!"Entity not found: {id}"
  | .entityAlreadyExists id t => s!"Entity already exists: {id} at t={t}"
  | .timeSliceNotFound t => s!"Time slice not found: t={t}"
  | .positionBlocked x y t => s!"Position blocked: ({x}, {y}, {t})"

/-! ## Validation (`src/game/validation.rs`) -/

/-- First blocking entity at a position outside an ignore list
(`blocking_entity_at`). -/
def blocking_entity_at (cube : TimeCube) (pos : Position)
    (ignore_ids : List EntityId) : Option Entity :=
  (cube.entities_at pos).find? fun entity =>
    entity.blocks_movement && !ignore_ids.contains entity.id

/-- World-line membership test (`would_self_intersect`). -/
def would_self_intersect (state : GameState) (pos : Position) : Bool :=
  state.world_line.would_intersect pos

/-- Target validation for player movement (`validate_move_target`): time
overflow, bounds, blocking entity, self-intersection — in that order. -/
def validate_move_target (state : GameState) (target : Position) :
    Except MoveError Unit :=
  if target.t ≥ state.cube.time_depth then
    .error (.timeOverflow target.t (state.cube.time_depth - 1))
  else match state.cube.validate_position target with
  | .error _ => .error (.outOfBounds target.x target.y target.t)
  | .ok _ =>
    match blocking_entity_at state.cube target [] with
    | some blocking =>
      .error (.blocked target.x target.y target.t blocking.id blocking.entity_type.debugStr)
    | none =>
      if would_self_intersect state target then
        .error (.selfIntersection target.x target.y target.t)
      else .ok ()

/-- Directional move validation (`validate_directional_move`). -/
def validate_directional_move (state : GameState) (direction : Direction) :
    Except MoveError Position :=
  let target := state.player_position.step direction
  match validate_move_target state target with
  | .error e => .error e
  | .ok _ => .ok target

/-- Wait validation (`validate_wait`). -/
def validate_wait (state : GameState) : Except MoveError Position :=
  let target := state.player_position.wait
  match validate_move_target state target with
  | .error e => .error e
  | .ok _ => .ok target

/-- Rift validation (`validate_rift`). -/
def validate_rift (state : GameState) : Except ActionError Position :=
  match state.cube.rift_target state.player_position with
  | none => .error .noRiftHere
  | some target =>
    match state.cube.validate_position target with
    | .error _ => .error (.invalidRiftTarget target "out of bounds")
    | .ok _ =>
      if would_self_intersect state target then
        .error (.invalidRiftTarget target "self-intersection")
      else .ok target

/-- Player-move validation with an ignore list
(`validate_player_move_with_ignores`). -/
def validate_player_move_with_ignores (state : GameState) (target : Position)
    (ignore_ids : List EntityId) : Except MoveError Unit :=
  if target.t ≥ state.cube.time_depth then
    .error (.timeOverflow target.t (state.cube.time_depth - 1))
  else match state.cube.validate_position target with
  | .error _ => .error (.outOfBounds target.x target.y target.t)
  | .ok _ =>
    match blocking_entity_at state.cube target ignore_ids with
    | some blocking =>
      .error (.blocked target.x target.y target.t blocking.id blocking.entity_type.debugStr)
    | none =>
      if would_self_intersect state target then
        .error (.selfIntersection target.x target.y target.t)
      else .ok ()

/-- Pushed-entity target validation (`validate_entity_target`): like the
player check but with no self-intersection test. -/
def validate_entity_target (cube : TimeCube) (target : Position)
    (ignore_ids : List EntityId) : Except MoveError Unit :=
  if target.t ≥ cube.time_depth then
    .error (.timeOverflow target.t (cube.time_depth - 1))
  else match cube.validate_position target with
  | .error _ => .error (.outOfBounds target.x target.y target.t)
  | .ok _ =>
    match blocking_entity_at cube target ignore_ids with
    | some blocking =>
      .error (.blocked target.x target.y target.t blocking.id blocking.entity_type.debugStr)
    | none => .ok ()

/-- First pushable entity at a position, as searched by the chain scan. -/
def findPushable (cube : TimeCube) (pos : Position) : Option Entity :=
  (cube.entities_at pos).find? fun e =>
    e.has fun c => match c with | .pushable => true | _ => false

/-- Body of the `while chain.len() <= max_chain` scan of
`compute_push_chain`; `remaining = max_chain + 1 - chain.len()` counts how
many more entries the loop guard still admits. -/
def pushChainAux (cube : TimeCube) (direction : Direction) :
    Nat → Position → List (EntityId × Position)
  | 0, _ => []
  | remaining + 1, current =>
    match findPushable cube current with
    | some entity =>
      (entity.id, current) :: pushChainAux cube direction remaining (current.move_dir direction)
    | none => []

/-- Push-chain scan (`compute_push_chain`): consecutive cells from the
player in `direction`, collecting pushable entities while the chain length
stays at most `max_chain` (so at most `max_chain + 1` entries). -/
def compute_push_chain (cube : TimeCube) (start_pos : Position)
    (direction : Direction) (max_chain : Nat) : List (EntityId × Position) :=
  pushChainAux cube direction (max_chain + 1) (start_pos.move_dir direction)

/-- The per-entity destination loop at the end of `validate_push`, failing
with `PushBlocked` on the first invalid destination. -/
def validatePushTargets (cube : TimeCube) (direction : Direction) (next_t : Int)
    (ignored_ids : List EntityId) :
    List (EntityId × Position) → Except ActionError (List (EntityId × Position × Position))
  | [] => .ok []
  | (id, frm) :: rest =>
    let dest := Position.new (frm.x + direction.delta.1) (frm.y + direction.delta.2) next_t
    match validate_entity_target cube dest ignored_ids with
    | .error _ => .error (.pushBlocked dest)
    | .ok _ =>
      match validatePushTargets cube direction next_t ignored_ids rest with
      | .error e => .error e
      | .ok pushed => .ok ((id, frm, dest) :: pushed)

/-- Push validation (`validate_push`): scan the chain at the current slice,
reject an empty chain (`NothingToPush`) or one longer than
`max_push_chain` (`PushChainTooLong`), then validate the player's and
every pushed entity's destination at `t + 1`, ignoring the chain and the
player as blockers. -/
def validate_push (state : GameState) (direction : Direction) :
    Except ActionError (List (EntityId × Position × Position)) :=
  let current := state.player_position
  let chain := compute_push_chain state.cube current direction state.config.max_push_chain
  if chain.isEmpty then .error (.nothingToPush direction)
  else if chain.length > state.config.max_push_chain then
    .error (.pushChainTooLong chain.length state.config.max_push_chain)
  else
    let next_t := current.t + 1
    let player_to := current.step direction
    let ignored_ids := chain.map Prod.fst ++ [state.player_id]
    match validate_player_move_with_ignores state player_to ignored_ids with
    | .error e => .error (.moveBlocked e)
    | .ok _ => validatePushTargets state.cube direction next_t ignored_ids chain

/-- Pull validation (`validate_pull`): the first entity at the cell behind
the player must be `Pullable`; the player's destination and the pulled
entity's destination (the player's old cell at `t + 1`) are then
validated, ignoring the pulled entity and the player as blockers. -/
def validate_pull (state : GameState) (direction : Direction) :
    Except ActionError (EntityId × Position × Position) :=
  let current := state.player_position
  let pull_pos := current.move_dir direction.opposite
  match (state.cube.entities_at pull_pos).head? with
  | none => .error (.nothingToPull direction)
  | some pull_entity =>
    if !(pull_entity.has fun c => match c with | .pullable => true | _ => false) then
      .error (.notPullable pull_entity.id)
    else
      let next_t := current.t + 1
      let player_to := current.step direction
      let ignored_ids := [pull_entity.id, state.player_id]
      match validate_player_move_with_ignores state player_to ignored_ids with
      | .error e => .error (.moveBlocked e)
      | .ok _ =>
        let box_to := Position.new current.x current.y next_t
        match validate_entity_target state.cube box_to ignored_ids with
        | .error _ => .error (.pushBlocked box_to)
        | .ok _ => .ok (pull_entity.id, pull_pos, box_to)

/-! ## Action application (`src/game/actions.rs`) -/

/-- Outcome of an applied action (`ActionOutcome`). -/
inductive ActionOutcome where
  | moved (frm dst : Position)
  | waited (at_pos : Position)
  | rifted (frm dst : Position)
  | pushed (player_to : Position) (pushedTargets : List (EntityId × Position))
  | pulled (player_to : Position) (pulled_id : EntityId) (pulled_to : Position)
  | restarted
  | won (at_pos : Position)
  | detected (by_enemy : EntityId) (seen_at : Position)
deriving DecidableEq, Repr

/-- Result of applying an action (`ActionResult`). -/
structure ActionResult where
  state : GameState
  outcome : ActionOutcome
  moved_entities : List (EntityId × Position × Position)
  propagation : Option PropagationResult
deriving Repr

/-- Post-move bookkeeping (`finalize_action`): after a movement outcome,
re-run detection and then the exit check; detection takes precedence and
exactly one of `Detected`/`Won` can replace the nominal outcome. -/
def finalize_action (state : GameState) (outcome : ActionOutcome)
    (moved_entities : List (EntityId × Position × Position))
    (propagation : Option PropagationResult) : Except ActionError ActionResult :=
  let isMovement :=
    match outcome with
    | .moved _ _ | .waited _ | .rifted _ _ | .pushed _ _ | .pulled _ _ _ => true
    | _ => false
  if isMovement then
    match check_detection state.cube state.world_line state.config.detection with
    | some result =>
      .ok ⟨{ state with phase := .detected },
           .detected result.enemy_id result.player_position, moved_entities, propagation⟩
    | none =>
      if state.at_exit then
        .ok ⟨{ state with phase := .won }, .won state.player_position,
             moved_entities, propagation⟩
      else .ok ⟨state, outcome, moved_entities, propagation⟩
  else .ok ⟨state, outcome, moved_entities, propagation⟩

/-- World-line extension plus player-entity relocation
(`apply_player_move`): extend (or rift-extend) the world line, despawn the
player from the old slice (result ignored) and write the player entity at
the destination via `spawn_or_replace`. -/
def apply_player_move (state : GameState) (frm dst : Position) (via_rift : Bool) :
    Except ActionError GameState :=
  match (if via_rift then state.world_line.extend_via_rift dst
         else state.world_line.extend dst) with
  | (.error _, _) => .error (.moveBlocked (.selfIntersection dst.x dst.y dst.t))
  | (.ok _, wl') =>
    let state1 := { state with world_line := wl' }
    let cube1 := (state1.cube.despawn_at state1.player_id frm.t).2
    let player_entity : Entity := ⟨state1.player_id, dst, [.player], none⟩
    match cube1.spawn_or_replace player_entity with
    | (.error e, _) => .error (.internal e.message)
    | (.ok _, cube2) => .ok { state1 with cube := cube2 }

/-- Apply a directional move (`apply_move`). -/
def apply_move (state : GameState) (direction : Direction) :
    Except ActionError ActionResult :=
  let frm := state.player_position
  match validate_directional_move state direction with
  | .error e => .error (.moveBlocked e)
  | .ok dst =>
    match apply_player_move state frm dst false with
    | .error e => .error e
    | .ok s1 =>
      let s2 := { s1 with history := s1.history ++ [Action.move direction] }
      let s3 := { s2 with turn := s2.world_line.current_turn.getD 0 }
      finalize_action s3 (.moved frm dst) [(state.player_id, frm, dst)] none

/-- Apply a wait (`apply_wait`). -/
def apply_wait (state : GameState) : Except ActionError ActionResult :=
  match validate_wait state with
  | .error e => .error (.moveBlocked e)
  | .ok at_pos =>
    let frm := state.player_position
    match apply_player_move state frm at_pos false with
    | .error e => .error e
    | .ok s1 =>
      let s2 := { s1 with history := s1.history ++ [Action.wait] }
      let s3 := { s2 with turn := s2.world_line.current_turn.getD 0 }
      finalize_action s3 (.waited at_pos) [(state.player_id, frm, at_pos)] none

/-- Apply a rift jump (`apply_rift`). -/
def apply_rift (state : GameState) : Except ActionError ActionResult :=
  let frm := state.player_position
  match validate_rift state with
  | .error e => .error e
  | .ok dst =>
    match apply_player_move state frm dst true with
    | .error e => .error e
    | .ok s1 =>
      let s2 := { s1 with history := s1.history ++ [Action.useRift] }
      let s3 := { s2 with turn := s2.world_line.current_turn.getD 0 }
      finalize_action s3 (.rifted frm dst) [(state.player_id, frm, dst)] none

/-- The per-pushed-entity relocation loop of `apply_push`/`apply_pull`:
look the entity up in the pre-action cube at the current time and rewrite
it at its destination via `spawn_or_replace`. -/
def relocateEntities (old_cube : TimeCube) (t : Int) :
    GameState → List (EntityId × Position × Position) → Except ActionError GameState
  | s, [] => .ok s
  | s, (id, _frm, dst) :: rest =>
    match old_cube.entity_at_time id t with
    | none => .error (.internal "push entity not found")
    | some original =>
      match s.cube.spawn_or_replace (original.at_position dst) with
      | (.error e, _) => .error (.internal e.message)
      | (.ok _, cube') => relocateEntities old_cube t { s with cube := cube' } rest

/-- Apply a push (`apply_push`): move the player, relocate every pushed
entity, re-propagate just those entities from the new time forward
(non-fatally), record history and turn, then finalize. -/
def apply_push (state : GameState) (direction : Direction) :
    Except ActionError ActionResult :=
  let current := state.player_position
  match validate_push state direction with
  | .error e => .error e
  | .ok moved =>
    let player_to := current.step direction
    match apply_player_move state current player_to false with
    | .error e => .error e
    | .ok s1 =>
      match relocateEntities state.cube current.t s1 moved with
      | .error e => .error e
      | .ok s2 =>
        let moved_entities := (state.player_id, current, player_to) :: moved
        let pushed_ids := moved.map (·.1)
        let prop := propagate_from_with_options s2.cube player_to.t
          ⟨some pushed_ids, none, false⟩
        let s3 := { s2 with cube := prop.2 }
        let s4 := { s3 with history := s3.history ++ [Action.push direction] }
        let s5 := { s4 with turn := s4.world_line.current_turn.getD 0 }
        finalize_action s5
          (.pushed player_to (moved.map fun m => (m.1, m.2.2)))
          moved_entities prop.1.toOption

/-- Apply a pull (`apply_pull`). -/
def apply_pull (state : GameState) (direction : Direction) :
    Except ActionError ActionResult :=
  let current := state.player_position
  match validate_pull state direction with
  | .error e => .error e
  | .ok pulled =>
    let player_to := current.step direction
    match apply_player_move state current player_to false with
    | .error e => .error e
    | .ok s1 =>
      match relocateEntities state.cube current.t s1 [pulled] with
      | .error e => .error e
      | .ok s2 =>
        let moved_entities := [(state.player_id, current, player_to), pulled]
        let prop := propagate_entity s2.cube pulled.1 player_to.t
        let s3 := { s2 with cube := prop.2 }
        let s4 := { s3 with history := s3.history ++ [Action.pull direction] }
        let s5 := { s4 with turn := s4.world_line.current_turn.getD 0 }
        finalize_action s5 (.pulled player_to pulled.1 pulled.2.2)
          moved_entities prop.1.toOption

/-- Apply a restart (`apply_restart` and `GameState::reset_to_initial`):
restore the frozen snapshots, phase `Playing`, turn 0, empty history. -/
def apply_restart (state : GameState) : Except ActionError ActionResult :=
  let new_state := { state with
    cube := state.initial_cube,
    world_line := state.initial_world_line,
    phase := GamePhase.playing,
    turn := 0,
    history := [] }
  .ok ⟨new_state, .restarted, [], none⟩

/-- Top-level action dispatch (`apply_action`): every non-restart action is
rejected outside the `Playing` phase; `Restart` is always accepted. -/
def apply_action (state : GameState) (action : Action) :
    Except ActionError ActionResult :=
  if !state.is_active && !decide (action = Action.restart) then
    .error (.gameNotActive state.phase)
  else
    match action with
    | .move direction => apply_move state direction
    | .wait => apply_wait state
    | .useRift => apply_rift state
    | .push direction => apply_push state direction
    | .pull direction => apply_pull state direction
    | .restart => apply_restart state

/-- Legal-action enumeration (`GameState::valid_actions`): empty outside
the `Playing` phase; otherwise every validated move/push/pull per
direction, then wait, rift and restart. -/
def GameState.valid_actions (state : GameState) : List Action :=
  if !state.is_active then []
  else
    let dirActions := Direction.all.foldl
      (fun acc dir =>
        let acc1 := if (validate_directional_move state dir).isOk
          then acc ++ [Action.move dir] else acc
        let acc2 := if (validate_push state dir).isOk
          then acc1 ++ [Action.push dir] else acc1
        if (validate_pull state dir).isOk then acc2 ++ [Action.pull dir] else acc2)
      []
    let a1 := if (validate_wait state).isOk then dirActions ++ [Action.wait] else dirActions
    let a2 := if (validate_rift state).isOk then a1 ++ [Action.useRift] else a1
    a2 ++ [Action.restart]

/-- C10: for every game state whose phase is not `Playing`,
`valid_actions` returns the empty list (in particular it never lists
`Restart`), while `apply_action` accepts and applies `Restart` in every
phase. -/
theorem C10_valid_actions_inactive :
    ∀ state : GameState,
      (state.phase ≠ GamePhase.playing → state.valid_actions = [])
      ∧ (apply_action state Action.restart).isOk = true := by
  intro state
  constructor
  · intro hph
    unfold GameState.valid_actions
    rw [if_pos (by simp [GameState.is_active, hph])]
  · unfold apply_action
    rw [if_neg (by simp)]
    rfl

/-- C10 witness: a finished (`Won`) one-cell session lists no valid
actions, yet `Restart` still applies. -/
theorem C10_valid_actions_inactive_witness :
    (⟨TimeCube.new 1 1 1, WorldLine.new (Position.new 0 0 0), 0, GamePhase.won, 0, [],
      ⟨3, 3, "Unnamed", "unknown", false, ⟨.discreteDelay, 2, 8⟩⟩,
      TimeCube.new 1 1 1, WorldLine.new (Position.new 0 0 0)⟩ : GameState).valid_actions = []
    ∧ (apply_action
        (⟨TimeCube.new 1 1 1, WorldLine.new (Position.new 0 0 0), 0, GamePhase.won, 0, [],
          ⟨3, 3, "Unnamed", "unknown", false, ⟨.discreteDelay, 2, 8⟩⟩,
          TimeCube.new 1 1 1, WorldLine.new (Position.new 0 0 0)⟩ : GameState)
        Action.restart).isOk = true :=
  ⟨(C10_valid_actions_inactive _).1 (by decide),
   (C10_valid_actions_inactive _).2⟩

/-- C7: detection precedence in `finalize_action`. For every movement
outcome (move, wait, rift, push, pull): when detection fires, the result's
phase and outcome are `Detected` — even if the exit condition also holds —
and only when detection does not fire and the player stands on the exit is
`Won` reported; exactly one of the two outcomes replaces the nominal one. -/
theorem C7_detection_precedence :
    ∀ (state : GameState) (outcome : ActionOutcome)
      (moved : List (EntityId × Position × Position)) (prop : Option PropagationResult),
      (match outcome with
       | .moved _ _ | .waited _ | .rifted _ _ | .pushed _ _ | .pulled _ _ _ => true
       | _ => false) = true →
      (∀ r, check_detection state.cube state.world_line state.config.detection = some r →
        finalize_action state outcome moved prop =
          .ok ⟨{ state with phase := GamePhase.detected },
               .detected r.enemy_id r.player_position, moved, prop⟩)
      ∧ (check_detection state.cube state.world_line state.config.detection = none →
         state.at_exit = true →
         finalize_action state outcome moved prop =
           .ok ⟨{ state with phase := GamePhase.won },
                .won state.player_position, moved, prop⟩) := by
  intro state outcome moved prop hmov
  constructor
  · intro r hdet
    unfold finalize_action
    rw [if_pos hmov, hdet]
  · intro hdet hexit
    unfold finalize_action
    rw [if_pos hmov, hdet]
    dsimp only
    rw [if_pos hexit]

/-- A `10×10×3` cube with an omnidirectional stationary enemy at `(5,2)`
and the exit at `(2,2)` in the slice at `t = 2`. -/
def cubeDetectExit : TimeCube :=
  ((TimeCube.new 10 10 3).spawn
    (Entity.enemy 5 (Position.new 5 2 2) ⟨[SpatialPos.new 5 2], true⟩
      ⟨3, Direction.north, 360⟩)).2.spawn (Entity.exitEntity 6 (Position.new 2 2 2)) |>.2

/-- The world line of a player who waited twice at `(2,2)`. -/
def wlDetectExit : WorldLine :=
  ⟨[Position.new 2 2 0, Position.new 2 2 1, Position.new 2 2 2],
   [Position.new 2 2 2, Position.new 2 2 1, Position.new 2 2 0]⟩

/-- A state in which, on the same turn, the discrete-delay detection
condition holds (`delay_turns = 2`, `vision_radius = 5`, distance 3) and
the player stands on the exit. -/
def stateDetectExit : GameState :=
  ⟨cubeDetectExit, wlDetectExit, 9, .playing, 2, [],
   ⟨3, 3, "Unnamed", "unknown", false, ⟨.discreteDelay, 2, 5⟩⟩,
   cubeDetectExit, wlDetectExit⟩

/-- C7 witness: in `stateDetectExit` both the detection and the exit
conditions hold, and `finalize_action` reports phase `Detected` and
outcome `Detected` — not `Won`. -/
theorem C7_detection_precedence_witness :
    check_detection stateDetectExit.cube stateDetectExit.world_line
      stateDetectExit.config.detection
      = some ⟨5, Position.new 5 2 2, Position.new 2 2 0⟩
    ∧ stateDetectExit.at_exit = true
    ∧ finalize_action stateDetectExit (.waited (Position.new 2 2 2)) [] none
        = .ok ⟨{ stateDetectExit with phase := GamePhase.detected },
               .detected 5 (Position.new 2 2 0), [], none⟩ :=
  ⟨rfl, rfl,
   (C7_detection_precedence stateDetectExit (.waited (Position.new 2 2 2)) [] none rfl).1
     ⟨5, Position.new 5 2 2, Position.new 2 2 0⟩ rfl⟩

/-! ### Characterizations of the destination validators -/

theorem in_bounds_unpack {c : TimeCube} {pos : Position} (h : c.in_bounds pos = true) :
    0 ≤ pos.x ∧ 0 ≤ pos.y ∧ 0 ≤ pos.t ∧
      pos.x < c.width ∧ pos.y < c.height ∧ pos.t < c.time_depth := by
  simpa [TimeCube.in_bounds] using h

theorem validate_position_ok (c : TimeCube) (pos : Position) (h : c.in_bounds pos = true) :
    c.validate_position pos = .ok () := by
  simp [TimeCube.validate_position, h]

theorem validate_position_err (c : TimeCube) (pos : Position) (h : ¬c.in_bounds pos = true) :
    c.validate_position pos =
      .error (.outOfBounds pos.x pos.y pos.t c.width c.height c.time_depth) := by
  simp [TimeCube.validate_position, h]

theorem validate_player_move_ok_iff (state : GameState) (target : Position)
    (ids : List EntityId) :
    validate_player_move_with_ignores state target ids = .ok () ↔
      (state.cube.in_bounds target = true
       ∧ blocking_entity_at state.cube target ids = none
       ∧ would_self_intersect state target = false) := by
  unfold validate_player_move_with_ignores
  by_cases h1 : target.t ≥ state.cube.time_depth
  · rw [if_pos h1]
    constructor
    · intro h
      exact absurd h (by simp)
    · rintro ⟨hb, -, -⟩
      have := in_bounds_unpack hb
      omega
  · rw [if_neg h1]
    by_cases hb : state.cube.in_bounds target
    · rw [validate_position_ok _ _ hb]
      dsimp only
      rcases hblock : blocking_entity_at state.cube target ids with _ | blocking
      · by_cases hint : would_self_intersect state target
        · rw [if_pos hint]
          simp [hb, hint]
        · rw [if_neg hint]
          simp only [Bool.not_eq_true] at hint
          simp [hb, hint]
      · simp [hblock]
    · rw [validate_position_err _ _ hb]
      dsimp only
      simp [hb]

theorem validate_entity_ok_iff (cube : TimeCube) (target : Position)
    (ids : List EntityId) :
    validate_entity_target cube target ids = .ok () ↔
      (cube.in_bounds target = true
       ∧ blocking_entity_at cube target ids = none) := by
  unfold validate_entity_target
  by_cases h1 : target.t ≥ cube.time_depth
  · rw [if_pos h1]
    constructor
    · intro h
      exact absurd h (by simp)
    · rintro ⟨hb, -⟩
      have := in_bounds_unpack hb
      omega
  · rw [if_neg h1]
    by_cases hb : cube.in_bounds target
    · rw [validate_position_ok _ _ hb]
      dsimp only
      rcases hblock : blocking_entity_at cube target ids with _ | blocking
      · simp [hb]
      · simp [hblock]
    · rw [validate_position_err _ _ hb]
      dsimp only
      simp [hb]

/-- C6 (amended): pull validation. With no entity at the cell behind the
player it fails with `NothingToPull`; when the first entity at that cell is
not `Pullable` it fails with `NotPullable`; and it succeeds exactly when
the first entity at the cell behind is `Pullable`, the player's destination
is in-bounds, unblocked (ignoring the player and the pulled entity) and not
already visited by the world line, and the pulled entity's destination (the
player's old cell at `t + 1`) is in-bounds and unblocked — the world line
is not consulted for the pulled entity's destination. -/
theorem C6_validate_pull_exactness :
    ∀ (state : GameState) (direction : Direction),
      ((state.cube.entities_at
          (state.player_position.move_dir direction.opposite)).head? = none →
        validate_pull state direction = .error (.nothingToPull direction))
      ∧ (∀ e, (state.cube.entities_at
            (state.player_position.move_dir direction.opposite)).head? = some e →
          e.has (fun c => match c with | .pullable => true | _ => false) = false →
          validate_pull state direction = .error (.notPullable e.id))
      ∧ ((validate_pull state direction).isOk = true ↔
          ∃ e, (state.cube.entities_at
              (state.player_position.move_dir direction.opposite)).head? = some e
            ∧ e.has (fun c => match c with | .pullable => true | _ => false) = true
            ∧ state.cube.in_bounds (state.player_position.step direction) = true
            ∧ blocking_entity_at state.cube (state.player_position.step direction)
                [e.id, state.player_id] = none
            ∧ would_self_intersect state (state.player_position.step direction) = false
            ∧ state.cube.in_bounds
                (Position.new state.player_position.x state.player_position.y
                  (state.player_position.t + 1)) = true
            ∧ blocking_entity_at state.cube
                (Position.new state.player_position.x state.player_position.y
                  (state.player_position.t + 1)) [e.id, state.player_id] = none) := by
  intro state direction
  refine ⟨?_, ?_, ?_⟩
  · intro hnone
    unfold validate_pull
    dsimp only
    rw [hnone]
  · intro e hsome hnp
    unfold validate_pull
    dsimp only
    rw [hsome]
    dsimp only
    rw [if_pos (by simp [hnp])]
  · constructor
    · intro hok
      unfold validate_pull at hok
      dsimp only at hok
      rcases hhead : (state.cube.entities_at
          (state.player_position.move_dir direction.opposite)).head? with _ | e
      · rw [hhead] at hok
        exact absurd hok Bool.false_ne_true
      · rw [hhead] at hok
        dsimp only at hok
        by_cases hp : e.has (fun c => match c with | .pullable => true | _ => false)
        · rw [if_neg (by simp [hp])] at hok
          rcases hpm : validate_player_move_with_ignores state
              (state.player_position.step direction) [e.id, state.player_id] with e1 | u
          · rw [hpm] at hok
            exact absurd hok Bool.false_ne_true
          · rw [hpm] at hok
            dsimp only at hok
            rcases het : validate_entity_target state.cube
                (Position.new state.player_position.x state.player_position.y
                  (state.player_position.t + 1)) [e.id, state.player_id] with e2 | u2
            · rw [het] at hok
              exact absurd hok Bool.false_ne_true
            · obtain ⟨hb1, hbl1, hint1⟩ := (validate_player_move_ok_iff state
                (state.player_position.step direction) [e.id, state.player_id]).mp hpm
              obtain ⟨hb2, hbl2⟩ := (validate_entity_ok_iff state.cube
                (Position.new state.player_position.x state.player_position.y
                  (state.player_position.t + 1)) [e.id, state.player_id]).mp het
              exact ⟨e, rfl, hp, hb1, hbl1, hint1, hb2, hbl2⟩
        · rw [if_pos (by simp [hp])] at hok
          exact absurd hok Bool.false_ne_true
    · rintro ⟨e, hhead, hp, hb1, hbl1, hint1, hb2, hbl2⟩
      unfold validate_pull
      dsimp only
      rw [hhead]
      dsimp only
      rw [if_neg (by simp [hp]),
        (validate_player_move_ok_iff state (state.player_position.step direction)
          [e.id, state.player_id]).mpr ⟨hb1, hbl1, hint1⟩]
      dsimp only
      rw [(validate_entity_ok_iff state.cube
        (Position.new state.player_position.x state.player_position.y
          (state.player_position.t + 1)) [e.id, state.player_id]).mpr ⟨hb2, hbl2⟩]
      rfl

/-- A state whose player at `(2,1,0)` has an exit marker and a pullable box
sharing the cell `(1,1,0)` behind them, the non-pullable exit having been
spawned first. -/
def statePullShadowed : GameState :=
  let c := ((TimeCube.new 5 5 5).spawn (Entity.exitEntity 1 (Position.new 1 1 0))).2.spawn
    (Entity.pullable_box 2 (Position.new 1 1 0)) |>.2
  ⟨c, WorldLine.new (Position.new 2 1 0), 9, .playing, 0, [],
   ⟨3, 3, "Unnamed", "unknown", false, ⟨.discreteDelay, 2, 8⟩⟩,
   c, WorldLine.new (Position.new 2 1 0)⟩

/-- C6: counterexample to the claim as stated. In `statePullShadowed` the
cell behind the player does hold a `Pullable` entity, both destinations are
in-bounds, free of blockers other than the player and the pulled box, and
unvisited by the world line — yet `Pull(East)` fails with `NotPullable`,
because the validation inspects only the first entity at the cell (here the
non-pullable exit marker spawned before the box). -/
theorem C6_counterexample :
    ((statePullShadowed.cube.entities_at (Position.new 1 1 0)).any fun e =>
        e.has fun c => match c with | .pullable => true | _ => false) = true
    ∧ statePullShadowed.cube.in_bounds (Position.new 3 1 1) = true
    ∧ blocking_entity_at statePullShadowed.cube (Position.new 3 1 1) [2, 9] = none
    ∧ would_self_intersect statePullShadowed (Position.new 3 1 1) = false
    ∧ statePullShadowed.cube.in_bounds (Position.new 2 1 1) = true
    ∧ blocking_entity_at statePullShadowed.cube (Position.new 2 1 1) [2, 9] = none
    ∧ would_self_intersect statePullShadowed (Position.new 2 1 1) = false
    ∧ validate_pull statePullShadowed Direction.east
        = .error (.notPullable 1) := by
  refine ⟨?_, ?_, ?_, ?_, ?_, ?_, ?_, ?_⟩ <;> rfl

/-- A state whose player at `(2,1,0)` has a single pullable box behind them
at `(1,1,0)`. -/
def statePullClean : GameState :=
  let c := ((TimeCube.new 5 5 5).spawn (Entity.pullable_box 2 (Position.new 1 1 0))).2
  ⟨c, WorldLine.new (Position.new 2 1 0), 9, .playing, 0, [],
   ⟨3, 3, "Unnamed", "unknown", false, ⟨.discreteDelay, 2, 8⟩⟩,
   c, WorldLine.new (Position.new 2 1 0)⟩

/-- C6 witness: the amended theorem applied at concrete states — the
failure mode with nothing behind the player, and a successful pull of a
lone pullable box. -/
theorem C6_validate_pull_exactness_witness :
    validate_pull statePullClean Direction.west
        = .error (.nothingToPull Direction.west)
    ∧ (validate_pull statePullClean Direction.east).isOk = true :=
  ⟨(C6_validate_pull_exactness statePullClean Direction.west).1 rfl,
   (C6_validate_pull_exactness statePullClean Direction.east).2.2.mpr
     ⟨Entity.pullable_box 2 (Position.new 1 1 0), rfl, rfl,
      by decide, by decide, by decide, by decide, by decide⟩⟩

/-! ### Push-chain length lemmas -/

/-- The cell `n` steps from `pos` in direction `dir`. -/
def cellFrom (pos : Position) (dir : Direction) : Nat → Position
  | 0 => pos
  | n + 1 => (cellFrom pos dir n).move_dir dir

theorem cellFrom_shift (pos : Position) (dir : Direction) (j : Nat) :
    cellFrom (pos.move_dir dir) dir j = cellFrom pos dir (j + 1) := by
  induction j with
  | zero => rfl
  | succ n ih =>
    show (cellFrom (pos.move_dir dir) dir n).move_dir dir = _
    rw [ih]
    rfl

theorem pushChainAux_len_full (cube : TimeCube) (dir : Direction) :
    ∀ (r : Nat) (pos : Position),
      (∀ j : Nat, j < r → (findPushable cube (cellFrom pos dir j)).isSome = true) →
      (pushChainAux cube dir r pos).length = r := by
  intro r
  induction r with
  | zero => intro pos _; rfl
  | succ n ih =>
    intro pos h
    have h0 := h 0 (Nat.succ_pos n)
    rcases hf : findPushable cube pos with _ | e
    · rw [show cellFrom pos dir 0 = pos from rfl, hf] at h0
      simp at h0
    · unfold pushChainAux
      rw [hf]
      simp only [List.length_cons]
      have hrec : (pushChainAux cube dir n (pos.move_dir dir)).length = n := by
        apply ih
        intro j hj
        rw [cellFrom_shift]
        exact h (j + 1) (by omega)
      omega

theorem pushChainAux_len_stop (cube : TimeCube) (dir : Direction) :
    ∀ (r k : Nat) (pos : Position), k < r →
      (∀ j : Nat, j < k → (findPushable cube (cellFrom pos dir j)).isSome = true) →
      findPushable cube (cellFrom pos dir k) = none →
      (pushChainAux cube dir r pos).length = k := by
  intro r
  induction r with
  | zero => intro k pos hk _ _; omega
  | succ n ih =>
    intro k pos hk h hend
    cases k with
    | zero =>
      unfold pushChainAux
      rw [show cellFrom pos dir 0 = pos from rfl] at hend
      rw [hend]
      rfl
    | succ m =>
      have h0 := h 0 (Nat.succ_pos m)
      rcases hf : findPushable cube pos with _ | e
      · rw [show cellFrom pos dir 0 = pos from rfl, hf] at h0
        simp at h0
      · unfold pushChainAux
        rw [hf]
        simp only [List.length_cons]
        have hrec : (pushChainAux cube dir n (pos.move_dir dir)).length = m := by
          apply ih m (pos.move_dir dir) (by omega)
          · intro j hj
            rw [cellFrom_shift]
            exact h (j + 1) (by omega)
          · rw [cellFrom_shift]
            exact hend
        omega

theorem validatePushTargets_ok (cube : TimeCube) (dir : Direction) (next_t : Int)
    (ids : List EntityId) :
    ∀ chain : List (EntityId × Position),
      (∀ p ∈ chain,
        cube.in_bounds
          (Position.new (p.2.x + dir.delta.1) (p.2.y + dir.delta.2) next_t) = true
        ∧ blocking_entity_at cube
            (Position.new (p.2.x + dir.delta.1) (p.2.y + dir.delta.2) next_t) ids
          = none) →
      (validatePushTargets cube dir next_t ids chain).isOk = true := by
  intro chain
  induction chain with
  | nil => intro _; rfl
  | cons p rest ih =>
    intro h
    obtain ⟨hb, hbl⟩ := h p (List.mem_cons_self ..)
    rcases p with ⟨id, frm⟩
    unfold validatePushTargets
    dsimp only
    rw [(validate_entity_ok_iff cube
      (Position.new (frm.x + dir.delta.1) (frm.y + dir.delta.2) next_t) ids).mpr ⟨hb, hbl⟩]
    dsimp only
    rcases hrec : validatePushTargets cube dir next_t ids rest with e | pushed
    · have hr := ih fun q hq => h q (List.mem_cons_of_mem _ hq)
      rw [hrec] at hr
      exact absurd hr Bool.false_ne_true
    · rfl

/-- C5: the push-chain bound. For a player facing `k` consecutive cells
each holding a pushable entity in direction `dir` (and, for the success
case, no pushable on the cell after them): when `k` exceeds
`max_push_chain`, `Push(dir)` validation fails with `PushChainTooLong` —
by the stated equation, never with the blocked error — regardless of what
lies beyond; and when `1 ≤ k ≤ max_push_chain` and the player's and every
pushed entity's destination cell at `t + 1` is in-bounds, unoccupied by
movement blockers other than the pushed chain and the player, and (for
the player's destination) not visited by the world line, validation
succeeds. -/
theorem C5_push_chain_bound :
    ∀ (state : GameState) (direction : Direction) (k : Nat),
      (∀ j : Nat, j < k →
        (findPushable state.cube
          (cellFrom (state.player_position.move_dir direction) direction j)).isSome
            = true) →
      ((state.config.max_push_chain < k →
          validate_push state direction =
            .error (.pushChainTooLong (state.config.max_push_chain + 1)
              state.config.max_push_chain))
       ∧ (1 ≤ k → k ≤ state.config.max_push_chain →
          findPushable state.cube
            (cellFrom (state.player_position.move_dir direction) direction k) = none →
          state.cube.in_bounds (state.player_position.step direction) = true →
          blocking_entity_at state.cube (state.player_position.step direction)
            ((compute_push_chain state.cube state.player_position direction
              state.config.max_push_chain).map Prod.fst ++ [state.player_id]) = none →
          would_self_intersect state (state.player_position.step direction) = false →
          (∀ p ∈ compute_push_chain state.cube state.player_position direction
              state.config.max_push_chain,
            state.cube.in_bounds (Position.new (p.2.x + direction.delta.1)
              (p.2.y + direction.delta.2) (state.player_position.t + 1)) = true
            ∧ blocking_entity_at state.cube (Position.new (p.2.x + direction.delta.1)
                (p.2.y + direction.delta.2) (state.player_position.t + 1))
                ((compute_push_chain state.cube state.player_position direction
                  state.config.max_push_chain).map Prod.fst ++ [state.player_id])
              = none) →
          (validate_push state direction).isOk = true)) := by
  intro state direction k hrun
  constructor
  · intro hk
    have hlen : (compute_push_chain state.cube state.player_position direction
        state.config.max_push_chain).length = state.config.max_push_chain + 1 := by
      unfold compute_push_chain
      apply pushChainAux_len_full
      intro j hj
      exact hrun j (by omega)
    unfold validate_push
    dsimp only
    rw [if_neg ?_, if_pos (by omega)]
    · rw [hlen]
    · intro hemp
      rw [List.isEmpty_iff] at hemp
      rw [hemp] at hlen
      simp at hlen
  · intro hk1 hk2 hend hbp hblp hintp htargets
    have hlen : (compute_push_chain state.cube state.player_position direction
        state.config.max_push_chain).length = k := by
      unfold compute_push_chain
      exact pushChainAux_len_stop state.cube direction _ k _ (by omega) hrun hend
    unfold validate_push
    dsimp only
    rw [if_neg ?_, if_neg (by omega)]
    · rw [(validate_player_move_ok_iff state (state.player_position.step direction)
        ((compute_push_chain state.cube state.player_position direction
          state.config.max_push_chain).map Prod.fst ++ [state.player_id])).mpr
        ⟨hbp, hblp, hintp⟩]
      dsimp only
      exact validatePushTargets_ok state.cube direction (state.player_position.t + 1)
        _ _ htargets
    · intro hemp
      rw [List.isEmpty_iff] at hemp
      rw [hemp] at hlen
      simp at hlen
      omega

/-- A state with a player at `(1,1,0)` facing two pushable boxes at
`(2,1,0)` and `(3,1,0)`, under the default `max_push_chain = 3`. -/
def statePushTwo : GameState :=
  let c := ((TimeCube.new 10 5 5).spawn (Entity.pushable_box 1 (Position.new 2 1 0))).2.spawn
    (Entity.pushable_box 2 (Position.new 3 1 0)) |>.2
  ⟨c, WorldLine.new (Position.new 1 1 0), 9, .playing, 0, [],
   ⟨3, 3, "Unnamed", "unknown", false, ⟨.discreteDelay, 2, 8⟩⟩,
   c, WorldLine.new (Position.new 1 1 0)⟩

/-- A state with a player at `(1,1,0)` facing four pushable boxes at
`x = 2..5`, exceeding the default `max_push_chain = 3`. -/
def statePushFour : GameState :=
  let c := ((((TimeCube.new 10 5 5).spawn
    (Entity.pushable_box 1 (Position.new 2 1 0))).2.spawn
    (Entity.pushable_box 2 (Position.new 3 1 0))).2.spawn
    (Entity.pushable_box 3 (Position.new 4 1 0))).2.spawn
    (Entity.pushable_box 4 (Position.new 5 1 0)) |>.2
  ⟨c, WorldLine.new (Position.new 1 1 0), 9, .playing, 0, [],
   ⟨3, 3, "Unnamed", "unknown", false, ⟨.discreteDelay, 2, 8⟩⟩,
   c, WorldLine.new (Position.new 1 1 0)⟩

/-- C5 witness: pushing two boxes (`k = 2 ≤ 3`) validates successfully,
and pushing four boxes (`k = 4 > 3`) fails with `PushChainTooLong`, not
with a blocked error. -/
theorem C5_push_chain_bound_witness :
    (validate_push statePushTwo Direction.east).isOk = true
    ∧ validate_push statePushFour Direction.east
        = .error (.pushChainTooLong 4 3) :=
  ⟨(C5_push_chain_bound statePushTwo Direction.east 2 (by decide)).2 (by decide) (by decide)
      (by decide) (by decide) (by decide) (by decide) (by decide),
   (C5_push_chain_bound statePushFour Direction.east 4 (by decide)).1 (by decide)⟩

end HeWalksUnseen
